import Mathlib

/-!
# Pokédex front-end (`script.js`): search resolution, rendering and persisted preferences

A shallow embedding of `script.js`.  JavaScript strings are Lean `String`s (sequences of
Unicode scalar values), a thrown `Error` is represented by its `message`, the DOM regions the
script touches (`#cards`, `#error`, `#loading`, `#searchInput`, `body.dark`) and the two
`localStorage` keys are fields of an explicit `State`, and the asynchronous code is run to
completion in program order.  The host environment (network, `String.prototype.toLowerCase`
and `localStorage.setItem`) is a parameter, `Runtime`.  A parsed Pokémon body is either an
object of the shape `createCard` reads (`Entity`) or some other value, on which `createCard`
throws; `localStorage.setItem` may throw; both exceptions follow the `try`/`catch` structure
of the script.  The nesting of `init` and `doSearch` calls is bounded by an explicit depth; a
run that exceeds it yields `none`.
-/

set_option autoImplicit false

namespace Pokedex

/-! ## Strings -/

/-- White space and line terminators removed by `String.prototype.trim`. -/
def isTrimChar (c : Char) : Bool :=
  let n := c.toNat
  n == 0x09 || n == 0x0A || n == 0x0B || n == 0x0C || n == 0x0D || n == 0x20 ||
  n == 0xA0 || n == 0x1680 || (0x2000 ≤ n && n ≤ 0x200A) || n == 0x2028 || n == 0x2029 ||
  n == 0x202F || n == 0x205F || n == 0x3000 || n == 0xFEFF

/-- The characters kept by `trim`: leading trim characters dropped, then trailing ones. -/
def trimChars (cs : List Char) : List Char :=
  ((cs.dropWhile isTrimChar).reverse.dropWhile isTrimChar).reverse

/-- Source `s.trim()`. -/
def jsTrim (s : String) : String := ⟨trimChars s.data⟩

/-- Does `t` occur in `cs` starting at some position (scanning from the left). -/
def includesChars : List Char → List Char → Bool
  | [], t => t.isEmpty
  | c :: cs, t => t.isPrefixOf (c :: cs) || includesChars cs t

/-- Source `s.includes(t)`. -/
def includes (s t : String) : Bool := includesChars s.data t.data

/-- Upper-case hexadecimal digit. -/
def hexDigit (n : Nat) : Char :=
  if n < 10 then Char.ofNat (48 + n) else Char.ofNat (55 + n)

/-- Characters `encodeURIComponent` leaves alone: `A-Z a-z 0-9 - _ . ! ~ * ' ( )`. -/
def isUriUnreserved (c : Char) : Bool :=
  c.isAlphanum || c == '-' || c == '_' || c == '.' || c == '!' || c == '~' || c == '*' ||
  c == Char.ofNat 39 || c == '(' || c == ')'

/-- Source `encodeURIComponent(s)`: every other character becomes the `%XX` escapes of its UTF-8
bytes. -/
def encodeURIComponent (s : String) : String :=
  ⟨s.data.flatMap fun c =>
    if isUriUnreserved c then [c]
    else (String.utf8EncodeChar c).flatMap fun b =>
      ['%', hexDigit (b.toNat / 16), hexDigit (b.toNat % 16)]⟩

/-- First truthy string of a `a || b || c` chain: `undefined`, `null` and `''` are falsy. -/
def orElse (a : Option String) (b : String) : String :=
  match a with
  | some v => if v ≠ "" then v else b
  | none => b

/-! ## Catalog data -/

/-- One element of `poke.stats`: `stat.name` and `base_stat`. -/
structure Stat where
  name : String
  base_stat : Int
  deriving DecidableEq, Repr

/-- The fields of a fetched Pokémon object that `createCard` reads. -/
structure Entity where
  name : String
  id : Int
  height : Int
  weight : Int
  /-- `sprites?.other?.['official-artwork']?.front_default` -/
  officialArtwork : Option String
  /-- `sprites?.front_default` -/
  frontDefault : Option String
  /-- `types[].type.name` -/
  types : List String
  stats : List Stat
  deriving DecidableEq, Repr

/-- One element of `listData.results`. -/
structure ListingEntry where
  name : String
  url : String
  deriving DecidableEq, Repr

/-- The body of a listing response; `results` may be missing. -/
structure ListData where
  results : Option (List ListingEntry)
  deriving DecidableEq, Repr

/-! ## Cards -/

/-- The `article.card` element built by `createCard`.  The text of `.poke-id` divides height
and weight by ten in floating point; the card keeps the three numbers it is built from. -/
structure Card where
  dataName : String
  imgAlt : String
  imgSrc : String
  name : String
  id : Int
  height : Int
  weight : Int
  types : List String
  stats : List String
  deriving DecidableEq, Repr

/-- The allow-list walked by `createCard`. -/
def STAT_KEYS : List String := ["hp", "attack", "defense", "speed"]

/-- The predicate handed to `poke.stats.find` for one key. -/
def statMatches (keyName : String) (s : Stat) : Bool :=
  let n := s.name
  includes n keyName || (keyName == "hp" && n == "hp")

/-- Text of one `.stat` line. -/
def statText (statObj : Stat) : String :=
  statObj.name ++ ": " ++ toString statObj.base_stat

/-- The line one key contributes: the text of the first matching statistic, if any. -/
def statLine (stats : List Stat) (keyName : String) : Option String :=
  match stats.find? (statMatches keyName) with
  | some statObj => some (statText statObj)
  | none => none

/-- The children appended to `.stats`, in order. -/
def statLines (stats : List Stat) : List String :=
  STAT_KEYS.filterMap (statLine stats)

/-- Source `createCard(poke)`. -/
def createCard (poke : Entity) : Card :=
  { dataName := poke.name
    imgAlt := poke.name
    imgSrc := orElse poke.officialArtwork
      (orElse poke.frontDefault "https://via.placeholder.com/120?text=?")
    name := poke.name
    id := poke.id
    height := poke.height
    weight := poke.weight
    types := poke.types
    stats := statLines poke.stats }

/-- A parsed JSON body as `createCard` meets it. -/
inductive Body where
  /-- An object with the fields `createCard` reads. -/
  | pokemon (e : Entity)
  /-- Any other value (an object without a `types` or `stats` array, a listing, `null`),
  with the message of the `TypeError` that `createCard` throws on it. -/
  | other (message : String)
  deriving DecidableEq, Repr

/-- Source `createCard(poke)` on an arbitrary parsed body: the card, or the exception. -/
def tryCreateCard : Body → Except String Card
  | .pokemon e => .ok (createCard e)
  | .other message => .error message

/-- The loop `pokemons.forEach(p => frag.appendChild(createCard(p)))`: the cards in order, or
the first exception. -/
def createCards : List Body → Except String (List Card)
  | [] => .ok []
  | p :: ps =>
    match tryCreateCard p with
    | .error m => .error m
    | .ok c =>
      match createCards ps with
      | .error m => .error m
      | .ok cs => .ok (c :: cs)

/-! ## Host environment -/

/-- A settled `Response`: its `ok` flag and what `res.json()` settles to, read as a Pokémon
and read as a listing (`Except.error` carries the message of the rejection). -/
structure Response where
  ok : Bool
  jsonEntity : Except String Body
  jsonList : Except String ListData

/-- What the promise returned by `fetch(url)` settles to. -/
inductive FetchResult where
  /-- Network failure: `fetch` rejects with an error carrying this message. -/
  | rejected (message : String)
  | resolved (res : Response)

/-- The host: the network, indexed by the number of requests issued before and the URL; the
instant at which the `n`-th request's promise chain settles; `toLowerCase`; the message of
the `TypeError` raised by reading a property of `undefined`; and `localStorage.setItem`,
which, called with a value after `n` requests were issued, either stores it (`none`) or
throws an exception with the given message. -/
structure Runtime where
  fetch : Nat → String → FetchResult
  settle : Nat → Nat
  toLowerCase : String → String
  typeErrorMessage : String
  setItem : Nat → String → Option String

/-! ## Page state -/

/-- Content of `#cards`. -/
inductive CardsHtml where
  /-- `innerHTML = ''` -/
  | blank
  /-- The paragraph "No results found." -/
  | noResults
  | cards (cs : List Card)
  deriving DecidableEq, Repr

/-- A call of one of the two mutually recursive functions. -/
inductive Call where
  | init
  | doSearch (query : String) (store : Bool)
  deriving DecidableEq, Repr

/-- The DOM regions and `localStorage` keys the script reads and writes, with three logs:
the URLs fetched, the values written to `lastSearch`, and the calls of `init`/`doSearch`. -/
structure State where
  cards : CardsHtml
  errorText : String
  errorHidden : Bool
  loadingHidden : Bool
  searchInput : String
  dark : Bool
  /-- `storage.get('theme')`; `none` when absent or malformed. -/
  theme : Option String
  /-- `storage.get('lastSearch')`; `none` when absent or malformed. -/
  lastSearch : Option String
  requests : List String
  writes : List String
  calls : List Call
  deriving DecidableEq, Repr

def API_BASE : String := "https://pokeapi.co/api/v2/pokemon"

def DEFAULT_COUNT : Nat := 12

/-- Source `showLoading(show)`. -/
def showLoading (s : State) (show_ : Bool) : State :=
  { s with loadingHidden := !show_ }

/-- Source `showError(msg)`: an empty message hides the region and leaves its text. -/
def showError (s : State) (msg : String) : State :=
  if msg = "" then { s with errorHidden := true }
  else { s with errorText := msg, errorHidden := false }

/-- Source `storage.set('lastSearch', val)`: the value is stored, or `setItem` throws and
nothing is stored. -/
def setLastSearch (rt : Runtime) (s : State) (val : String) : Except String Unit × State :=
  match rt.setItem s.requests.length val with
  | some message => (.error message, s)
  | none => (.ok (), { s with lastSearch := some val, writes := s.writes ++ [val] })

/-- Source `applyThemeFromStorage()`. -/
def applyThemeFromStorage (s : State) : State :=
  let theme := orElse s.theme "light"
  { s with dark := theme == "dark" }

/-- Source `toggleTheme()`. -/
def toggleTheme (rt : Runtime) (s : State) : State :=
  let newTheme := if s.dark then "light" else "dark"
  let s := { s with dark := newTheme == "dark" }
  match rt.setItem s.requests.length newTheme with
  | some _ => s
  | none => { s with theme := some newTheme }

/-- Source `renderCards(pokemons)`: `#cards` is emptied first; when `createCard` throws on one
of the bodies nothing is appended and the exception leaves `renderCards`. -/
def renderCards (s : State) (pokemons : List Body) : Except String Unit × State :=
  let s := { s with cards := CardsHtml.blank }
  if pokemons.length = 0 then (.ok (), { s with cards := CardsHtml.noResults })
  else
    match createCards pokemons with
    | .error message => (.error message, s)
    | .ok cs => (.ok (), { s with cards := CardsHtml.cards cs })

/-- Source `await fetch(url)`, logging the URL. -/
def doFetch (rt : Runtime) (url : String) (s : State) : FetchResult × State :=
  (rt.fetch s.requests.length url, { s with requests := s.requests ++ [url] })

/-- The URL built by `fetchPokemon`. -/
def pokemonUrl (rt : Runtime) (identifier : String) : String :=
  API_BASE ++ "/" ++ encodeURIComponent (rt.toLowerCase identifier)

/-- The URL of a listing request. -/
def listUrl (limit : Nat) : String :=
  API_BASE ++ "?limit=" ++ toString limit

/-- Source `fetchPokemon(identifier)`. -/
def fetchPokemon (rt : Runtime) (identifier : String) (s : State) :
    Except String Body × State :=
  let url := pokemonUrl rt identifier
  let res := doFetch rt url s
  match res.1 with
  | .rejected m => (.error m, res.2)
  | .resolved r =>
    if !r.ok then (.error ("Pokémon not found: " ++ identifier), res.2)
    else (r.jsonEntity, res.2)

/-- What `fetch(url).then(r => r.json())` settles to; `r.ok` is not looked at. -/
def detailOf : FetchResult → Except String Body
  | .rejected m => .error m
  | .resolved res => res.jsonEntity

/-- The rejection that settles first among a list of (instant, outcome) pairs; the earlier
position wins a tie. -/
def firstRejection {α : Type} : List (Nat × Except String α) → Option (Nat × String)
  | [] => none
  | (_, .ok _) :: ps => firstRejection ps
  | (t, .error m) :: ps =>
    match firstRejection ps with
    | some (t1, m1) => if t1 < t then some (t1, m1) else some (t, m)
    | none => some (t, m)

/-- The fulfilment values of a list of (instant, outcome) pairs, in order. -/
def fulfilled {α : Type} : List (Nat × Except String α) → List α
  | [] => []
  | (_, .ok v) :: ps => v :: fulfilled ps
  | (_, .error _) :: ps => fulfilled ps

/-- The join `Promise.all`: the values in input order, or the first rejection to happen. -/
def promiseAll {α : Type} (ps : List (Nat × Except String α)) : Except String (List α) :=
  match firstRejection ps with
  | some (_, m) => .error m
  | none => .ok (fulfilled ps)

/-- The promises of `items.map(it => fetch(it.url).then(r => r.json()))` when `n0` requests
were issued before: the instant each settles at and what it settles to. -/
def detailPromises (rt : Runtime) (n0 : Nat) (items : List ListingEntry) :
    List (Nat × Except String Body) :=
  items.enum.map fun p => (rt.settle (n0 + p.1), detailOf (rt.fetch (n0 + p.1) p.2.url))

/-- Source `await Promise.all(items.map(it => fetch(it.url).then(r => r.json())))`: every request is
issued, in order, before any of them settles. -/
def fetchDetails (rt : Runtime) (items : List ListingEntry) (s : State) :
    Except String (List Body) × State :=
  (promiseAll (detailPromises rt s.requests.length items),
    { s with requests := s.requests ++ items.map (·.url) })

/-- Source `fetchInitialList(limit)`; the `finally` clause runs on both exits. -/
def fetchInitialList (rt : Runtime) (s : State) (limit : Nat) :
    Except String (List Body) × State :=
  let s := showError s ""
  let s := showLoading s true
  let listResp := doFetch rt (listUrl limit) s
  let r : Except String (List Body) × State :=
    match listResp.1 with
    | .rejected m => (.error m, listResp.2)
    | .resolved resp =>
      if !resp.ok then (.error "Failed to load list", listResp.2)
      else match resp.jsonList with
        | .error m => (.error m, listResp.2)
        | .ok listData =>
          let items := listData.results.getD []
          fetchDetails rt items listResp.2
  (r.1, showLoading r.2 false)

/-- Source `listData.results.filter(r => r.name.includes(query.toLowerCase()))`. -/
def fallbackMatches (rt : Runtime) (query : String) (results : List ListingEntry) :
    List ListingEntry :=
  results.filter fun r => includes r.name (rt.toLowerCase query)

/-- The two statements `renderCards(...); if(store) storage.set('lastSearch', query);` that
end both the exact phase and the fallback phase: the outcome is the first exception thrown,
if any. -/
def renderAndStore (rt : Runtime) (query : String) (store : Bool) (pokemons : List Body)
    (s : State) : Except String Unit × State :=
  let r := renderCards s pokemons
  match r.1 with
  | .error m => (.error m, r.2)
  | .ok _ => if store then setLastSearch rt r.2 query else (.ok (), r.2)

/-- The tail of the `catch` block of the inner `try` of `doSearch`, from the filter on. -/
def doSearchMatches (rt : Runtime) (query : String) (store : Bool)
    (results : List ListingEntry) (s : State) : Except String Unit × State :=
  let matched := fallbackMatches rt query results
  if matched.length = 0 then (.error "No matching Pokémon found.", s)
  else
    let details := fetchDetails rt (matched.take 24) s
    match details.1 with
    | .error m => (.error m, details.2)
    | .ok ds => renderAndStore rt query store ds details.2

/-- The `catch` block of the inner `try` of `doSearch`: the search among the first 200. -/
def doSearchCatch (rt : Runtime) (query : String) (store : Bool) (s : State) :
    Except String Unit × State :=
  let limit : Nat := 200
  let listResp := doFetch rt (listUrl limit) s
  match listResp.1 with
  | .rejected m => (.error m, listResp.2)
  | .resolved resp =>
    if !resp.ok then (.error "Search failed.", listResp.2)
    else match resp.jsonList with
      | .error m => (.error m, listResp.2)
      | .ok listData =>
        match listData.results with
        | none => (.error rt.typeErrorMessage, listResp.2)
        | some results => doSearchMatches rt query store results listResp.2

/-- The outer `try` of `doSearch` for a non-empty trimmed query.  The inner `try` holds the
exact lookup, `renderCards([p])` and `storage.set`: an exception thrown by any of the three
runs the inner `catch`. -/
def doSearchTry (rt : Runtime) (query : String) (store : Bool) (s : State) :
    Except String Unit × State :=
  let p := fetchPokemon rt query s
  match p.1 with
  | .error _ => doSearchCatch rt query store p.2
  | .ok poke =>
    let r := renderAndStore rt query store [poke] p.2
    match r.1 with
    | .error _ => doSearchCatch rt query store r.2
    | .ok _ => (.ok (), r.2)

/-- The outer `catch` and `finally` of `doSearch`. -/
def doSearchExit (r : Except String Unit × State) : State :=
  let s := match r.1 with
    | .ok _ => r.2
    | .error message => showError r.2 (if message ≠ "" then message else "Search failed.")
  showLoading s false

/-- The first statements of `doSearch`, up to the test of the trimmed query. -/
def doSearchEnter (query : String) (store : Bool) (s : State) : State :=
  let s := { s with calls := s.calls ++ [Call.doSearch query store] }
  let s := showError s ""
  { s with cards := CardsHtml.blank }

/-- The first statement of `init`. -/
def initEnter (s : State) : State :=
  let s := { s with calls := s.calls ++ [Call.init] }
  applyThemeFromStorage s

/-- The `else` branch of `init`: fetch and render the default list. -/
def initDefault (rt : Runtime) (s : State) : State :=
  let s := showError s ""
  let s := showLoading s true
  let r := fetchInitialList rt s DEFAULT_COUNT
  let s := match r.1 with
    | .ok pokemons =>
      let rendered := renderCards r.2 pokemons
      match rendered.1 with
      | .ok _ => rendered.2
      | .error _ => showError rendered.2 "Unable to load Pokémon list. Try again later."
    | .error _ => showError r.2 "Unable to load Pokémon list. Try again later."
  showLoading s false

mutual

/-- Source `init()`.  The first argument bounds the depth of nested `init`/`doSearch` calls; `none`
means the bound was reached. -/
def init (rt : Runtime) : Nat → State → Option State
  | 0, _ => none
  | fuel + 1, s =>
    let s := initEnter s
    let lastSearch := orElse s.lastSearch ""
    if lastSearch ≠ "" then
      let s := { s with searchInput := lastSearch }
      doSearch rt fuel lastSearch false s
    else
      some (initDefault rt s)

/-- Source `doSearch(query, {store})`.  The `init()` of the empty case is run to completion in
place. -/
def doSearch (rt : Runtime) : Nat → String → Bool → State → Option State
  | 0, _, _, _ => none
  | fuel + 1, query, store, s =>
    let s := doSearchEnter query store s
    let query := jsTrim query
    if query = "" then
      init rt fuel s
    else
      let s := showLoading s true
      some (doSearchExit (doSearchTry rt query store s))

end

/-- The `submit` listener of the search form. -/
def onSubmit (rt : Runtime) (fuel : Nat) (s : State) : Option State :=
  let q := s.searchInput
  doSearch rt fuel q true s

/-- The `click` listener of the reset button.  When `storage.set` throws, the listener ends
there and `init` is not called. -/
def onReset (rt : Runtime) (fuel : Nat) (s : State) : Option State :=
  let s := { s with searchInput := "" }
  let w := setLastSearch rt s ""
  match w.1 with
  | .error _ => some w.2
  | .ok _ => init rt fuel w.2

/-! ## A small concrete host -/

/-- The host function `toLowerCase` on strings whose letters are ASCII. -/
def asciiLower (s : String) : String := ⟨s.data.map Char.toLower⟩

def pikachu : Entity :=
  { name := "pikachu", id := 25, height := 4, weight := 60,
    officialArtwork := some "https://img.example/25.png", frontDefault := none,
    types := ["electric"],
    stats := [⟨"hp", 35⟩, ⟨"attack", 55⟩, ⟨"defense", 40⟩, ⟨"special-attack", 50⟩,
      ⟨"special-defense", 50⟩, ⟨"speed", 90⟩] }

def charmander : Entity :=
  { name := "charmander", id := 4, height := 6, weight := 85,
    officialArtwork := none, frontDefault := some "https://img.example/4.png",
    types := ["fire"], stats := [⟨"hp", 39⟩, ⟨"speed", 65⟩] }

def charmeleon : Entity :=
  { name := "charmeleon", id := 5, height := 11, weight := 190,
    officialArtwork := none, frontDefault := none,
    types := ["fire"], stats := [⟨"attack", 64⟩] }

def demoListing : List ListingEntry :=
  [⟨"charmander", "https://pokeapi.co/api/v2/pokemon/4/"⟩,
   ⟨"charmeleon", "https://pokeapi.co/api/v2/pokemon/5/"⟩,
   ⟨"pikachu", "https://pokeapi.co/api/v2/pokemon/25/"⟩]

/-- The body of a 200 response carrying a Pokémon. -/
def entityBody (e : Entity) : Response :=
  ⟨true, .ok (.pokemon e), .ok ⟨none⟩⟩

/-- The body of a 200 response carrying a listing: it has no `types` array. -/
def listBody (l : List ListingEntry) : Response :=
  ⟨true, .ok (.other "Cannot read properties of undefined"), .ok ⟨some l⟩⟩

/-- A 200 response carrying a Pokémon. -/
def entityResponse (e : Entity) : FetchResult :=
  .resolved (entityBody e)

/-- A 200 response carrying a listing. -/
def listResponse (l : List ListingEntry) : FetchResult :=
  .resolved (listBody l)

/-- A 404 response whose body is the text "Not Found". -/
def notFound : FetchResult :=
  .resolved ⟨false, .error "Unexpected token N in JSON at position 0",
    .error "Unexpected token N in JSON at position 0"⟩

/-- A catalog of three Pokémon; every other URL answers 404. -/
def demoFetch (_ : Nat) (url : String) : FetchResult :=
  if url = "https://pokeapi.co/api/v2/pokemon/pikachu" then entityResponse pikachu
  else if url = "https://pokeapi.co/api/v2/pokemon/25/" then entityResponse pikachu
  else if url = "https://pokeapi.co/api/v2/pokemon/4/" then entityResponse charmander
  else if url = "https://pokeapi.co/api/v2/pokemon/5/" then entityResponse charmeleon
  else if url = "https://pokeapi.co/api/v2/pokemon?limit=12" then listResponse demoListing
  else if url = "https://pokeapi.co/api/v2/pokemon?limit=200" then listResponse demoListing
  else notFound

/-- The demo host: `localStorage.setItem` never throws. -/
def demoRuntime : Runtime :=
  { fetch := demoFetch, settle := fun n => n, toLowerCase := asciiLower,
    typeErrorMessage := "Cannot read properties of undefined",
    setItem := fun _ _ => none }

/-- A freshly loaded page with empty storage. -/
def freshState : State :=
  { cards := .blank, errorText := "", errorHidden := true, loadingHidden := true,
    searchInput := "", dark := false, theme := none, lastSearch := none,
    requests := [], writes := [], calls := [] }

/-- A listing whose only entry is spelled with a capital letter. -/
def capsFetch (_ : Nat) (url : String) : FetchResult :=
  if url = "https://pokeapi.co/api/v2/pokemon?limit=200" then
    listResponse [⟨"Pikachu", "https://pokeapi.co/api/v2/pokemon/25/"⟩]
  else notFound

def capsRuntime : Runtime :=
  { demoRuntime with fetch := capsFetch }

/-- The demo catalog, except that the connection drops while fetching `pokemon/5/`. -/
def flakyFetch (n : Nat) (url : String) : FetchResult :=
  if url = "https://pokeapi.co/api/v2/pokemon/5/" then .rejected "Failed to fetch"
  else demoFetch n url

def flakyRuntime : Runtime :=
  { demoRuntime with fetch := flakyFetch }

/-- The demo catalog, except that the two detail URLs `pokemon/4/` and `pokemon/5/` answer
with status 500 and the usual JSON body. -/
def statusFetch (n : Nat) (url : String) : FetchResult :=
  if url = "https://pokeapi.co/api/v2/pokemon/4/" then
    .resolved ⟨false, .ok (.pokemon charmander), .ok ⟨none⟩⟩
  else if url = "https://pokeapi.co/api/v2/pokemon/5/" then
    .resolved ⟨false, .ok (.pokemon charmeleon), .ok ⟨none⟩⟩
  else demoFetch n url

def statusRuntime : Runtime :=
  { demoRuntime with fetch := statusFetch }

/-- The demo catalog, except that `pokemon/pikachu` answers 200 with the body
`{"name":"pikachu"}`, which has no `types` array. -/
def bareFetch (n : Nat) (url : String) : FetchResult :=
  if url = "https://pokeapi.co/api/v2/pokemon/pikachu" then
    .resolved ⟨true, .ok (.other "Cannot read properties of undefined"), .ok ⟨none⟩⟩
  else demoFetch n url

def bareRuntime : Runtime :=
  { demoRuntime with fetch := bareFetch }

/-- The demo catalog, where the URL `pokemon/.` built for the query "." is served, after
removal of the dot segment, as `pokemon/`: a 200 response carrying the listing. -/
def dotFetch (n : Nat) (url : String) : FetchResult :=
  if url = "https://pokeapi.co/api/v2/pokemon/." then listResponse demoListing
  else demoFetch n url

def dotRuntime : Runtime :=
  { demoRuntime with fetch := dotFetch }

/-- The demo host, except that `localStorage.setItem` always throws. -/
def fullStorageRuntime : Runtime :=
  { demoRuntime with setItem := fun _ _ => some "The quota has been exceeded." }

/-- A page whose storage holds the last search "pikachu" and whose input field is empty. -/
def pikachuStored : State :=
  { freshState with lastSearch := some "pikachu", searchInput := "" }

/-- A page whose storage holds a last search made of two spaces. -/
def blankStored : State :=
  { freshState with lastSearch := some "  " }

/-! ## Specification vocabulary -/

/-- The cards present in `#cards`, in document order. -/
def renderedCards : CardsHtml → List Card
  | .blank => []
  | .noResults => []
  | .cards cs => cs

/-- A search text is well formed when it is empty, or non-empty and equal to its own trim. -/
def WellFormedSearch (v : String) : Prop := v = "" ∨ (v ≠ "" ∧ jsTrim v = v)

/-- The stored `lastSearch` is absent, empty, or a non-empty string equal to its own trim. -/
def StoredWellFormed (stored : Option String) : Prop :=
  ∀ v, stored = some v → WellFormedSearch v

/-- The stored `lastSearch` is non-empty but blank after trimming. -/
def BlankStored (stored : Option String) : Prop :=
  ∃ v, stored = some v ∧ v ≠ "" ∧ jsTrim v = ""


/-- The string `t` occurs in `s` as a contiguous substring, at any position. -/
def Contains (s t : String) : Prop := ∃ pre post : String, s = pre ++ t ++ post

/-- The state `t` agrees with `s` on the error region, the call log, the input field, the
loading indicator and the stored `lastSearch` with its write log. -/
def Untouched (s t : State) : Prop :=
  t.errorHidden = s.errorHidden ∧ t.errorText = s.errorText ∧ t.calls = s.calls ∧
  t.searchInput = s.searchInput ∧ t.loadingHidden = s.loadingHidden ∧
  t.lastSearch = s.lastSearch ∧ t.writes = s.writes

/-- What a run of the `try` block of `doSearch` from `s` with outcome `r` does to the page,
apart from the request log: it never touches the error region, the call log or the input
field; when it completes it has rendered at least one card and written the query exactly
when `store` is set; when it throws it has written nothing. -/
def SearchFrame (query : String) (store : Bool) (s : State)
    (r : Except String Unit × State) : Prop :=
  r.2.errorHidden = s.errorHidden ∧ r.2.errorText = s.errorText ∧ r.2.calls = s.calls ∧
  r.2.searchInput = s.searchInput ∧ r.2.loadingHidden = s.loadingHidden ∧
  (r.1 = .ok () →
    (∃ cs, cs ≠ [] ∧ r.2.cards = .cards cs) ∧
    r.2.lastSearch = (if store then some query else s.lastSearch) ∧
    r.2.writes = (if store then s.writes ++ [query] else s.writes)) ∧
  (∀ m, r.1 = .error m → r.2.lastSearch = s.lastSearch ∧ r.2.writes = s.writes)

/-! ## Strings: lemmas -/

theorem includesChars_iff (cs t : List Char) : includesChars cs t = true ↔ t <:+: cs := by
  induction cs with
  | nil => simp [includesChars, List.isEmpty_iff]
  | cons c cs ih => simp [includesChars, ih, List.infix_cons_iff]

theorem includes_iff (s t : String) : includes s t = true ↔ Contains s t := by
  unfold includes Contains
  rw [includesChars_iff]
  constructor
  · rintro ⟨l1, l2, h⟩
    refine ⟨⟨l1⟩, ⟨l2⟩, ?_⟩
    apply String.ext
    simp [h]
  · rintro ⟨pre, post, h⟩
    exact ⟨pre.data, post.data, by rw [h]; simp⟩

theorem includes_eq_false_iff (s t : String) : includes s t = false ↔ ¬ Contains s t := by
  rw [← includes_iff]; simp

theorem statMatches_iff (key : String) (st : Stat) :
    statMatches key st = true ↔ Contains st.name key := by
  unfold statMatches
  simp only [Bool.or_eq_true, Bool.and_eq_true, beq_iff_eq, includes_iff]
  constructor
  · rintro (h | ⟨h1, h2⟩)
    · exact h
    · rw [h1, h2]; exact ⟨"", "", by decide⟩
  · exact Or.inl

theorem find_first {α : Type} (p : α → Bool) (pre : List α) (a : α) (post : List α)
    (ha : p a = true) (hpre : ∀ x ∈ pre, p x = false) :
    (pre ++ a :: post).find? p = some a := by
  induction pre with
  | nil => simp [List.find?, ha]
  | cons b pre ih =>
    have hb : p b = false := hpre b (by simp)
    simp only [List.cons_append, List.find?, hb]
    exact ih fun x hx => hpre x (by simp [hx])

theorem statLine_none (stats : List Stat) (key : String)
    (h : ∀ st ∈ stats, ¬ Contains st.name key) : statLine stats key = none := by
  have : stats.find? (statMatches key) = none := by
    rw [List.find?_eq_none]
    intro x hx
    rw [statMatches_iff]
    exact h x hx
  simp [statLine, this]

theorem statLine_first (key : String) (pre : List Stat) (st : Stat) (post : List Stat)
    (hst : Contains st.name key) (hpre : ∀ x ∈ pre, ¬ Contains x.name key) :
    statLine (pre ++ st :: post) key = some (st.name ++ ": " ++ toString st.base_stat) := by
  have : (pre ++ st :: post).find? (statMatches key) = some st := by
    apply find_first
    · exact (statMatches_iff key st).mpr hst
    · intro x hx
      have := hpre x hx
      rw [← statMatches_iff] at this
      simpa using this
  simp [statLine, this, statText]

theorem statLine_some (stats : List Stat) (key line : String)
    (h : statLine stats key = some line) :
    ∃ st ∈ stats, Contains st.name key ∧ line = st.name ++ ": " ++ toString st.base_stat := by
  unfold statLine at h
  cases hf : stats.find? (statMatches key) with
  | none => simp [hf] at h
  | some st =>
    simp only [hf, Option.some.injEq] at h
    refine ⟨st, List.mem_of_find?_eq_some hf, ?_, ?_⟩
    · exact (statMatches_iff key st).mp (List.find?_some hf)
    · rw [← h]; rfl

/-! ## Claims -/

/-- C9: the statistic lines of a card are obtained by walking the allow-list hp, attack,
defense, speed in that order; a key contributes no line when no statistic name contains it,
and otherwise the line "name: value" of the first statistic whose name contains it.  Hence
there are at most four lines, and every line shows a statistic of the entity whose name
contains one of the four keys. -/
theorem createCard_stat_lines (poke : Entity) :
    (createCard poke).stats = STAT_KEYS.filterMap (statLine poke.stats)
    ∧ STAT_KEYS = ["hp", "attack", "defense", "speed"]
    ∧ (∀ key, (∀ st ∈ poke.stats, ¬ Contains st.name key) → statLine poke.stats key = none)
    ∧ (∀ key pre st post, poke.stats = pre ++ st :: post → Contains st.name key →
        (∀ x ∈ pre, ¬ Contains x.name key) →
        statLine poke.stats key = some (st.name ++ ": " ++ toString st.base_stat))
    ∧ (createCard poke).stats.length ≤ 4
    ∧ (∀ line ∈ (createCard poke).stats, ∃ key ∈ STAT_KEYS, ∃ st ∈ poke.stats,
        Contains st.name key ∧ line = st.name ++ ": " ++ toString st.base_stat) := by
  refine ⟨rfl, rfl, ?_, ?_, ?_, ?_⟩
  · exact fun key h => statLine_none poke.stats key h
  · intro key pre st post hs hst hpre
    rw [hs]
    exact statLine_first key pre st post hst hpre
  · show (STAT_KEYS.filterMap (statLine poke.stats)).length ≤ 4
    exact (List.length_filterMap_le _ _).trans (by simp [STAT_KEYS])
  · intro line hline
    have hline : line ∈ STAT_KEYS.filterMap (statLine poke.stats) := hline
    rw [List.mem_filterMap] at hline
    obtain ⟨key, hkey, hk⟩ := hline
    obtain ⟨st, hst, hc, hl⟩ := statLine_some poke.stats key line hk
    exact ⟨key, hkey, st, hst, hc, hl⟩



/-! ## State transformers: lemmas -/

theorem showError_empty (s : State) : showError s "" = { s with errorHidden := true } := by
  simp [showError]

theorem showError_of_ne (s : State) (msg : String) (h : msg ≠ "") :
    showError s msg = { s with errorText := msg, errorHidden := false } := by
  simp [showError, h]

theorem shown_message_ne (m : String) : (if m ≠ "" then m else "Search failed.") ≠ "" := by
  split
  · assumption
  · decide

theorem fetchPokemon_snd (rt : Runtime) (q : String) (s : State) :
    (fetchPokemon rt q s).2 = { s with requests := s.requests ++ [pokemonUrl rt q] } := by
  unfold fetchPokemon doFetch
  simp only
  split
  · rfl
  · split <;> rfl

theorem fetchPokemon_fst_congr (rt : Runtime) (q : String) (s t : State)
    (h : s.requests.length = t.requests.length) :
    (fetchPokemon rt q s).1 = (fetchPokemon rt q t).1 := by
  unfold fetchPokemon doFetch
  simp only [h]
  split
  · rfl
  · split <;> rfl

theorem pokemonUrl_ne_listUrl (rt : Runtime) (q : String) (limit : Nat) :
    pokemonUrl rt q ≠ listUrl limit := by
  intro h
  have h2 := congrArg String.data h
  simp only [pokemonUrl, listUrl, String.data_append, List.append_assoc] at h2
  have h3 := List.append_cancel_left h2
  simp at h3

/-! ## Unfolding `init` and `doSearch` -/

theorem doSearch_nonempty (rt : Runtime) (fuel : Nat) (raw : String) (store : Bool) (s : State)
    (hq : jsTrim raw ≠ "") :
    doSearch rt (fuel + 1) raw store s =
      some (doSearchExit (doSearchTry rt (jsTrim raw) store
        (showLoading (doSearchEnter raw store s) true))) := by
  rw [doSearch]
  simp only [hq, if_false]

theorem doSearch_empty (rt : Runtime) (fuel : Nat) (raw : String) (store : Bool) (s : State)
    (hq : jsTrim raw = "") :
    doSearch rt (fuel + 1) raw store s = init rt fuel (doSearchEnter raw store s) := by
  rw [doSearch]
  simp only [hq, if_true]

theorem init_restore (rt : Runtime) (fuel : Nat) (s : State)
    (h : orElse (initEnter s).lastSearch "" ≠ "") :
    init rt (fuel + 1) s =
      doSearch rt fuel (orElse (initEnter s).lastSearch "") false
        { initEnter s with searchInput := orElse (initEnter s).lastSearch "" } := by
  rw [init]
  simp only [h, ne_eq, not_false_eq_true, if_true]

theorem init_default (rt : Runtime) (fuel : Nat) (s : State)
    (h : orElse (initEnter s).lastSearch "" = "") :
    init rt (fuel + 1) s = some (initDefault rt (initEnter s)) := by
  rw [init]
  simp only [h, ne_eq, not_true_eq_false, if_false]

/-! ## `Promise.all` -/

theorem fulfilled_length {α : Type} (ps : List (Nat × Except String α))
    (h : firstRejection ps = none) : (fulfilled ps).length = ps.length := by
  induction ps with
  | nil => rfl
  | cons p ps ih =>
    obtain ⟨t, r⟩ := p
    cases r with
    | ok v =>
      simp only [firstRejection] at h
      simp [fulfilled, ih h]
    | error m =>
      simp only [firstRejection] at h
      split at h
      · split at h <;> simp at h
      · simp at h

theorem firstRejection_mem {α : Type} (ps : List (Nat × Except String α)) (t : Nat)
    (m : String) (h : firstRejection ps = some (t, m)) : (t, Except.error m) ∈ ps := by
  induction ps generalizing t m with
  | nil => simp [firstRejection] at h
  | cons p ps ih =>
    obtain ⟨t0, r⟩ := p
    cases r with
    | ok v =>
      simp only [firstRejection] at h
      exact List.mem_cons_of_mem _ (ih t m h)
    | error m0 =>
      simp only [firstRejection] at h
      split at h
      · rename_i t1 m1 h1
        split at h
        · simp only [Option.some.injEq, Prod.mk.injEq] at h
          obtain ⟨rfl, rfl⟩ := h
          exact List.mem_cons_of_mem _ (ih _ _ h1)
        · simp only [Option.some.injEq, Prod.mk.injEq] at h
          obtain ⟨rfl, rfl⟩ := h
          exact List.mem_cons_self _ _
      · simp only [Option.some.injEq, Prod.mk.injEq] at h
        obtain ⟨rfl, rfl⟩ := h
        exact List.mem_cons_self _ _

theorem firstRejection_none_of_ok {α : Type} (ps : List (Nat × Except String α))
    (vs : List α) (h : ps.map (·.2) = vs.map Except.ok) :
    firstRejection ps = none ∧ fulfilled ps = vs := by
  induction ps generalizing vs with
  | nil =>
    cases vs with
    | nil => exact ⟨rfl, rfl⟩
    | cons v vs => simp at h
  | cons p ps ih =>
    obtain ⟨t, r⟩ := p
    cases vs with
    | nil => simp at h
    | cons v vs =>
      simp only [List.map_cons, List.cons.injEq] at h
      obtain ⟨h1, h2⟩ := h
      subst h1
      obtain ⟨ih1, ih2⟩ := ih vs h2
      exact ⟨by simp [firstRejection, ih1], by simp [fulfilled, ih2]⟩

theorem firstRejection_some_of_mem {α : Type} (ps : List (Nat × Except String α)) (t : Nat)
    (m : String) (h : (t, Except.error m) ∈ ps) : ∃ x, firstRejection ps = some x := by
  induction ps with
  | nil => simp at h
  | cons p ps ih =>
    obtain ⟨t0, r⟩ := p
    cases r with
    | ok v =>
      simp only [List.mem_cons, Prod.mk.injEq, reduceCtorEq, and_false, false_or] at h
      simpa [firstRejection] using ih h
    | error m0 =>
      simp only [firstRejection]
      split
      · split <;> simp
      · simp

theorem promiseAll_ok_length {α : Type} (ps : List (Nat × Except String α)) (vs : List α)
    (h : promiseAll ps = .ok vs) : vs.length = ps.length := by
  unfold promiseAll at h
  split at h
  · simp at h
  · rename_i h0
    simp only [Except.ok.injEq] at h
    rw [← h]
    exact fulfilled_length ps h0

theorem promiseAll_of_ok {α : Type} (ps : List (Nat × Except String α)) (vs : List α)
    (h : ps.map (·.2) = vs.map Except.ok) : promiseAll ps = .ok vs := by
  obtain ⟨h1, h2⟩ := firstRejection_none_of_ok ps vs h
  simp [promiseAll, h1, h2]

theorem promiseAll_error_mem {α : Type} (ps : List (Nat × Except String α)) (m : String)
    (h : promiseAll ps = .error m) : ∃ t, (t, Except.error m) ∈ ps := by
  unfold promiseAll at h
  split at h
  · rename_i t m0 h0
    simp only [Except.error.injEq] at h
    subst h
    exact ⟨t, firstRejection_mem ps t _ h0⟩
  · simp at h

theorem promiseAll_error_of_mem {α : Type} (ps : List (Nat × Except String α)) (t : Nat)
    (m : String) (h : (t, Except.error m) ∈ ps) : ∃ m1, promiseAll ps = .error m1 := by
  obtain ⟨⟨t1, m1⟩, hx⟩ := firstRejection_some_of_mem ps t m h
  exact ⟨m1, by simp [promiseAll, hx]⟩

theorem detailPromises_length (rt : Runtime) (n0 : Nat) (items : List ListingEntry) :
    (detailPromises rt n0 items).length = items.length := by
  simp [detailPromises]

theorem mem_detailPromises (rt : Runtime) (n0 : Nat) (items : List ListingEntry) (t : Nat)
    (r : Except String Body) :
    (t, r) ∈ detailPromises rt n0 items ↔
      ∃ j it, items[j]? = some it ∧ t = rt.settle (n0 + j) ∧
        r = detailOf (rt.fetch (n0 + j) it.url) := by
  unfold detailPromises
  simp only [List.mem_map, Prod.mk.injEq, Prod.exists, List.mk_mem_enum_iff_getElem?]
  constructor
  · rintro ⟨j, it, h, rfl, rfl⟩
    exact ⟨j, it, h, rfl, rfl⟩
  · rintro ⟨j, it, h, rfl, rfl⟩
    exact ⟨j, it, h, rfl, rfl⟩

/-! ## Rendering and storing: lemmas -/

theorem untouched_refl (s : State) : Untouched s s :=
  ⟨rfl, rfl, rfl, rfl, rfl, rfl, rfl⟩

theorem untouched_trans (s t u : State) (h1 : Untouched s t) (h2 : Untouched t u) :
    Untouched s u := by
  obtain ⟨a1, a2, a3, a4, a5, a6, a7⟩ := h1
  obtain ⟨b1, b2, b3, b4, b5, b6, b7⟩ := h2
  exact ⟨b1.trans a1, b2.trans a2, b3.trans a3, b4.trans a4, b5.trans a5, b6.trans a6,
    b7.trans a7⟩

theorem searchFrame_of_untouched (q : String) (store : Bool) (s0 s : State)
    (r : Except String Unit × State) (h : Untouched s0 s) (hf : SearchFrame q store s r) :
    SearchFrame q store s0 r := by
  obtain ⟨a1, a2, a3, a4, a5, a6, a7⟩ := h
  obtain ⟨b1, b2, b3, b4, b5, hok, herr⟩ := hf
  refine ⟨b1.trans a1, b2.trans a2, b3.trans a3, b4.trans a4, b5.trans a5, ?_, ?_⟩
  · intro hr
    obtain ⟨c1, c2, c3⟩ := hok hr
    exact ⟨c1, by rw [c2, a6], by rw [c3, a7]⟩
  · intro m hr
    obtain ⟨c1, c2⟩ := herr m hr
    exact ⟨c1.trans a6, c2.trans a7⟩

theorem createCards_length (ps : List Body) (cs : List Card) (h : createCards ps = .ok cs) :
    cs.length = ps.length := by
  induction ps generalizing cs with
  | nil =>
    simp only [createCards, Except.ok.injEq] at h
    rw [← h]
    rfl
  | cons p ps ih =>
    simp only [createCards] at h
    split at h
    · simp at h
    · split at h
      · simp at h
      · rename_i cs1 hcs
        simp only [Except.ok.injEq] at h
        rw [← h, List.length_cons, List.length_cons, ih cs1 hcs]

theorem createCards_pokemon (es : List Entity) :
    createCards (es.map Body.pokemon) = .ok (es.map createCard) := by
  induction es with
  | nil => rfl
  | cons e es ih => simp [createCards, tryCreateCard, ih]

theorem renderCards_untouched (s : State) (ps : List Body) :
    Untouched s (renderCards s ps).2 ∧ (renderCards s ps).2.requests = s.requests := by
  unfold renderCards
  simp only
  split
  · exact ⟨⟨rfl, rfl, rfl, rfl, rfl, rfl, rfl⟩, rfl⟩
  · split
    · exact ⟨⟨rfl, rfl, rfl, rfl, rfl, rfl, rfl⟩, rfl⟩
    · exact ⟨⟨rfl, rfl, rfl, rfl, rfl, rfl, rfl⟩, rfl⟩

theorem renderCards_ok (s : State) (ps : List Body) (hne : ps ≠ [])
    (h : (renderCards s ps).1 = .ok ()) :
    ∃ cs, cs ≠ [] ∧ (renderCards s ps).2.cards = .cards cs := by
  have hl : ps.length ≠ 0 := by simpa [List.length_eq_zero] using hne
  unfold renderCards at h ⊢
  simp only [hl, if_false] at h ⊢
  split
  · rename_i m hm
    rw [hm] at h
    simp at h
  · rename_i cs hcs
    refine ⟨cs, ?_, rfl⟩
    intro h0
    have := createCards_length ps cs hcs
    rw [h0] at this
    exact hl this.symm

theorem renderCards_error (s : State) (ps : List Body) (m : String)
    (h : (renderCards s ps).1 = .error m) :
    (renderCards s ps).2.cards = CardsHtml.blank := by
  by_cases h0 : ps.length = 0
  · simp [renderCards, h0] at h
  · unfold renderCards at h ⊢
    simp only [h0, if_false] at h ⊢
    split
    · rfl
    · rename_i cs hcs
      rw [hcs] at h
      simp at h

theorem renderCards_pokemon (s : State) (es : List Entity) (hne : es ≠ []) :
    renderCards s (es.map Body.pokemon) =
      (.ok (), { s with cards := CardsHtml.cards (es.map createCard) }) := by
  have hl : (es.map Body.pokemon).length ≠ 0 := by
    simpa [List.length_eq_zero] using hne
  unfold renderCards
  simp only [hl, if_false, createCards_pokemon]

theorem setLastSearch_cases (rt : Runtime) (s : State) (v : String) :
    ((setLastSearch rt s v).1 = .ok () ∧
      (setLastSearch rt s v).2 = { s with lastSearch := some v, writes := s.writes ++ [v] }) ∨
    (∃ m, rt.setItem s.requests.length v = some m ∧ (setLastSearch rt s v).1 = .error m ∧
      (setLastSearch rt s v).2 = s) := by
  cases hm : rt.setItem s.requests.length v with
  | some m => exact Or.inr ⟨m, rfl, by simp [setLastSearch, hm], by simp [setLastSearch, hm]⟩
  | none => exact Or.inl ⟨by simp [setLastSearch, hm], by simp [setLastSearch, hm]⟩

theorem setLastSearch_ok (rt : Runtime) (s : State) (v : String)
    (h : rt.setItem s.requests.length v = none) :
    setLastSearch rt s v =
      (.ok (), { s with lastSearch := some v, writes := s.writes ++ [v] }) := by
  simp [setLastSearch, h]

theorem unit_outcome (x : Except String Unit) : x = .ok () ∨ ∃ m, x = .error m := by
  cases x with
  | ok u => exact Or.inl rfl
  | error m => exact Or.inr ⟨m, rfl⟩

theorem renderAndStore_frame (rt : Runtime) (q : String) (store : Bool) (ps : List Body)
    (s : State) (hne : ps ≠ []) :
    SearchFrame q store s (renderAndStore rt q store ps s) ∧
    (renderAndStore rt q store ps s).2.requests = s.requests := by
  obtain ⟨⟨a1, a2, a3, a4, a5, a6, a7⟩, a8⟩ := renderCards_untouched s ps
  unfold renderAndStore
  simp only
  rcases unit_outcome (renderCards s ps).1 with hr | ⟨m, hr⟩
  · obtain ⟨cs, hcs, hc⟩ := renderCards_ok s ps hne hr
    rw [hr]
    simp only
    cases store with
    | false =>
      refine ⟨⟨a1, a2, a3, a4, a5, ?_, ?_⟩, a8⟩
      · intro _
        exact ⟨⟨cs, hcs, hc⟩, by simpa using a6, by simpa using a7⟩
      · intro m h
        simp at h
    | true =>
      simp only [if_true]
      rcases setLastSearch_cases rt (renderCards s ps).2 q with ⟨h1, h2⟩ | ⟨m, _, h1, h2⟩
      · refine ⟨⟨?_, ?_, ?_, ?_, ?_, ?_, ?_⟩, ?_⟩
        · rw [h2]; exact a1
        · rw [h2]; exact a2
        · rw [h2]; exact a3
        · rw [h2]; exact a4
        · rw [h2]; exact a5
        · intro _
          rw [h2]
          exact ⟨⟨cs, hcs, hc⟩, rfl, by simp [a7]⟩
        · intro m h
          rw [h1] at h
          simp at h
        · rw [h2]; exact a8
      · refine ⟨⟨?_, ?_, ?_, ?_, ?_, ?_, ?_⟩, ?_⟩
        · rw [h2]; exact a1
        · rw [h2]; exact a2
        · rw [h2]; exact a3
        · rw [h2]; exact a4
        · rw [h2]; exact a5
        · intro h
          rw [h1] at h
          simp at h
        · intro _ _
          rw [h2]
          exact ⟨a6, a7⟩
        · rw [h2]; exact a8
  · rw [hr]
    simp only
    refine ⟨⟨a1, a2, a3, a4, a5, ?_, ?_⟩, a8⟩
    · intro h
      simp at h
    · intro _ _
      exact ⟨a6, a7⟩

theorem renderAndStore_cards (rt : Runtime) (q : String) (store : Bool) (es : List Entity)
    (s : State) (hne : es ≠ []) :
    (renderAndStore rt q store (es.map Body.pokemon) s).2.cards
      = CardsHtml.cards (es.map createCard) := by
  unfold renderAndStore
  simp only [renderCards_pokemon s es hne]
  cases store with
  | false => rfl
  | true =>
    simp only [if_true]
    rcases setLastSearch_cases rt { s with cards := CardsHtml.cards (es.map createCard) } q
      with ⟨_, h2⟩ | ⟨m, _, _, h2⟩
    · rw [h2]
    · rw [h2]

theorem untouched_of_error (q : String) (store : Bool) (s : State)
    (r : Except String Unit × State) (m : String) (hf : SearchFrame q store s r)
    (hr : r.1 = .error m) : Untouched s r.2 := by
  obtain ⟨b1, b2, b3, b4, b5, _, herr⟩ := hf
  obtain ⟨c1, c2⟩ := herr m hr
  exact ⟨b1, b2, b3, b4, b5, c1, c2⟩

/-! ## The `try` block of `doSearch`, case by case -/

theorem fetchPokemon_untouched (rt : Runtime) (q : String) (s : State) :
    Untouched s (fetchPokemon rt q s).2 := by
  rw [fetchPokemon_snd]
  exact ⟨rfl, rfl, rfl, rfl, rfl, rfl, rfl⟩

theorem doSearchTry_fallback (rt : Runtime) (q : String) (store : Bool) (s : State)
    (e : String) (h : (fetchPokemon rt q s).1 = .error e) :
    doSearchTry rt q store s =
      doSearchCatch rt q store { s with requests := s.requests ++ [pokemonUrl rt q] } := by
  unfold doSearchTry
  simp only [h, fetchPokemon_snd]

theorem doSearchTry_exact (rt : Runtime) (q : String) (store : Bool) (s : State) (p : Body)
    (h : (fetchPokemon rt q s).1 = .ok p) :
    doSearchTry rt q store s =
      match (renderAndStore rt q store [p]
          { s with requests := s.requests ++ [pokemonUrl rt q] }).1 with
      | .error _ => doSearchCatch rt q store (renderAndStore rt q store [p]
          { s with requests := s.requests ++ [pokemonUrl rt q] }).2
      | .ok _ => (.ok (), (renderAndStore rt q store [p]
          { s with requests := s.requests ++ [pokemonUrl rt q] }).2) := by
  unfold doSearchTry
  simp only [h, fetchPokemon_snd]

theorem doSearchCatch_results (rt : Runtime) (q : String) (store : Bool) (s : State)
    (resp : Response) (results : List ListingEntry)
    (hf : rt.fetch s.requests.length (listUrl 200) = .resolved resp)
    (hok : resp.ok = true) (hj : resp.jsonList = .ok ⟨some results⟩) :
    doSearchCatch rt q store s =
      doSearchMatches rt q store results { s with requests := s.requests ++ [listUrl 200] } := by
  unfold doSearchCatch doFetch
  simp only [hf, hok, hj]
  rfl

theorem doSearchMatches_none (rt : Runtime) (q : String) (store : Bool)
    (results : List ListingEntry) (s : State) (h : fallbackMatches rt q results = []) :
    doSearchMatches rt q store results s = (.error "No matching Pokémon found.", s) := by
  unfold doSearchMatches
  simp [h]

theorem doSearchMatches_ok (rt : Runtime) (q : String) (store : Bool)
    (results : List ListingEntry) (s : State) (ds : List Body)
    (h : fallbackMatches rt q results ≠ [])
    (hd : promiseAll (detailPromises rt s.requests.length
      ((fallbackMatches rt q results).take 24)) = .ok ds) :
    doSearchMatches rt q store results s =
      renderAndStore rt q store ds { s with requests := s.requests ++
        ((fallbackMatches rt q results).take 24).map (·.url) } := by
  unfold doSearchMatches fetchDetails
  have h0 : (fallbackMatches rt q results).length ≠ 0 := by
    simpa [List.length_eq_zero] using h
  simp only [h0, if_false, hd]

theorem doSearchMatches_error (rt : Runtime) (q : String) (store : Bool)
    (results : List ListingEntry) (s : State) (m : String)
    (h : fallbackMatches rt q results ≠ [])
    (hd : promiseAll (detailPromises rt s.requests.length
      ((fallbackMatches rt q results).take 24)) = .error m) :
    doSearchMatches rt q store results s =
      (.error m, { s with requests := s.requests ++
        ((fallbackMatches rt q results).take 24).map (·.url) }) := by
  unfold doSearchMatches fetchDetails
  have h0 : (fallbackMatches rt q results).length ≠ 0 := by
    simpa [List.length_eq_zero] using h
  simp only [h0, if_false, hd]

theorem details_ne_nil (rt : Runtime) (q : String) (results : List ListingEntry) (n0 : Nat)
    (ds : List Body) (h : fallbackMatches rt q results ≠ [])
    (hd : promiseAll (detailPromises rt n0 ((fallbackMatches rt q results).take 24)) = .ok ds) :
    ds ≠ [] := by
  have hlen := promiseAll_ok_length _ _ hd
  rw [detailPromises_length] at hlen
  intro h1
  rw [h1] at hlen
  simp only [List.length_nil, List.length_take] at hlen
  have : (fallbackMatches rt q results).length ≠ 0 := by
    simpa [List.length_eq_zero] using h
  omega

/-! ## What the `try` block leaves alone -/

theorem doSearchMatches_frame (rt : Runtime) (q : String) (store : Bool)
    (results : List ListingEntry) (s : State) :
    SearchFrame q store s (doSearchMatches rt q store results s) := by
  by_cases h : fallbackMatches rt q results = []
  · rw [doSearchMatches_none rt q store results s h]
    simp [SearchFrame]
  · cases hd : promiseAll (detailPromises rt s.requests.length
      ((fallbackMatches rt q results).take 24)) with
    | error m =>
      rw [doSearchMatches_error rt q store results s m h hd]
      simp [SearchFrame]
    | ok ds =>
      rw [doSearchMatches_ok rt q store results s ds h hd]
      exact searchFrame_of_untouched q store s _ _ ⟨rfl, rfl, rfl, rfl, rfl, rfl, rfl⟩
        (renderAndStore_frame rt q store ds _ (details_ne_nil rt q results _ ds h hd)).1

theorem doSearchCatch_frame (rt : Runtime) (q : String) (store : Bool) (s : State) :
    SearchFrame q store s (doSearchCatch rt q store s) := by
  unfold doSearchCatch doFetch
  simp only
  split
  · simp [SearchFrame]
  · split
    · simp [SearchFrame]
    · split
      · simp [SearchFrame]
      · split
        · simp [SearchFrame]
        · rename_i results _
          exact doSearchMatches_frame rt q store results
            { s with requests := s.requests ++ [listUrl 200] }

theorem doSearchTry_frame (rt : Runtime) (q : String) (store : Bool) (s : State) :
    SearchFrame q store s (doSearchTry rt q store s) := by
  cases h : (fetchPokemon rt q s).1 with
  | error e =>
    rw [doSearchTry_fallback rt q store s e h]
    exact doSearchCatch_frame rt q store { s with requests := s.requests ++ [pokemonUrl rt q] }
  | ok p =>
    rw [doSearchTry_exact rt q store s p h]
    have hf := (renderAndStore_frame rt q store [p]
      { s with requests := s.requests ++ [pokemonUrl rt q] } (by simp)).1
    have hu : Untouched s { s with requests := s.requests ++ [pokemonUrl rt q] } :=
      ⟨rfl, rfl, rfl, rfl, rfl, rfl, rfl⟩
    rcases unit_outcome (renderAndStore rt q store [p]
      { s with requests := s.requests ++ [pokemonUrl rt q] }).1 with hr | ⟨m, hr⟩
    · rw [hr]
      simp only
      refine searchFrame_of_untouched q store s _ _ hu ?_
      obtain ⟨b1, b2, b3, b4, b5, hok, herr⟩ := hf
      exact ⟨b1, b2, b3, b4, b5, fun _ => hok hr, fun m h => by simp at h⟩
    · rw [hr]
      simp only
      exact searchFrame_of_untouched q store s _ _
        (untouched_trans _ _ _ hu (untouched_of_error q store _ _ m hf hr))
        (doSearchCatch_frame rt q store _)

/-! ## Trimming is idempotent -/

theorem dropWhile_fixed_of_prefix {α : Type} (p : α → Bool) (l m : List α)
    (hl : l.dropWhile p = l) (hm : m <+: l) : m.dropWhile p = m := by
  cases m with
  | nil => rfl
  | cons a m1 =>
    obtain ⟨t, rfl⟩ := hm
    cases hp : p a with
    | false => simp [List.dropWhile_cons, hp]
    | true =>
      exfalso
      simp only [List.cons_append, List.dropWhile_cons, hp, if_true] at hl
      have h1 := congrArg List.length hl
      have h2 := (List.dropWhile_sublist p (l := m1 ++ t)).length_le
      simp only [List.length_cons] at h1
      omega

theorem trimChars_idem (cs : List Char) : trimChars (trimChars cs) = trimChars cs := by
  unfold trimChars
  have h1 : (((cs.dropWhile isTrimChar).reverse.dropWhile isTrimChar).reverse).dropWhile
      isTrimChar = ((cs.dropWhile isTrimChar).reverse.dropWhile isTrimChar).reverse := by
    apply dropWhile_fixed_of_prefix isTrimChar (cs.dropWhile isTrimChar)
    · exact List.dropWhile_idempotent isTrimChar cs
    · exact List.rdropWhile_prefix isTrimChar _
  rw [h1, List.reverse_reverse, List.dropWhile_idempotent]

theorem jsTrim_idem (s : String) : jsTrim (jsTrim s) = jsTrim s := by
  unfold jsTrim
  simp only [trimChars_idem]

theorem orElse_eq_empty_or (stored : Option String) :
    orElse stored "" = "" ∨ (stored = some (orElse stored "") ∧ orElse stored "" ≠ "") := by
  cases stored with
  | none => exact Or.inl rfl
  | some v =>
    by_cases hv : v = ""
    · left; simp [orElse, hv]
    · right; simp [orElse, hv]

/-! ## Fields left alone -/

theorem doSearchEnter_fields (raw : String) (store : Bool) (s : State) :
    (doSearchEnter raw store s).lastSearch = s.lastSearch ∧
    (doSearchEnter raw store s).writes = s.writes ∧
    (doSearchEnter raw store s).requests = s.requests ∧
    (doSearchEnter raw store s).calls = s.calls ++ [Call.doSearch raw store] ∧
    (doSearchEnter raw store s).errorHidden = true ∧
    (doSearchEnter raw store s).cards = CardsHtml.blank := by
  simp [doSearchEnter, showError_empty]

theorem initEnter_fields (s : State) :
    (initEnter s).lastSearch = s.lastSearch ∧ (initEnter s).writes = s.writes ∧
    (initEnter s).requests = s.requests ∧ (initEnter s).calls = s.calls ++ [Call.init] := by
  simp [initEnter, applyThemeFromStorage]

theorem doSearchExit_ok (r : Except String Unit × State) (h : r.1 = .ok ()) :
    doSearchExit r = showLoading r.2 false := by
  simp [doSearchExit, h]

theorem doSearchExit_error (r : Except String Unit × State) (m : String)
    (h : r.1 = .error m) :
    doSearchExit r = showLoading { r.2 with
      errorText := (if m ≠ "" then m else "Search failed."), errorHidden := false } false := by
  simp only [doSearchExit, h]
  rw [showError_of_ne _ _ (shown_message_ne m)]

theorem doSearchExit_requests (r : Except String Unit × State) :
    (doSearchExit r).requests = r.2.requests ∧ (doSearchExit r).cards = r.2.cards := by
  rcases unit_outcome r.1 with hr | ⟨m, hr⟩
  · rw [doSearchExit_ok r hr]; exact ⟨rfl, rfl⟩
  · rw [doSearchExit_error r m hr]; exact ⟨rfl, rfl⟩

theorem fetchInitialList_fields (rt : Runtime) (s : State) (limit : Nat) :
    (fetchInitialList rt s limit).2.lastSearch = s.lastSearch ∧
    (fetchInitialList rt s limit).2.writes = s.writes ∧
    (fetchInitialList rt s limit).2.calls = s.calls := by
  unfold fetchInitialList doFetch
  simp only [showError_empty, showLoading]
  split
  · simp
  · split
    · simp
    · split
      · simp
      · simp [fetchDetails]

theorem showError_fields (s : State) (msg : String) :
    (showError s msg).lastSearch = s.lastSearch ∧ (showError s msg).writes = s.writes ∧
    (showError s msg).calls = s.calls ∧ (showError s msg).requests = s.requests ∧
    (showError s msg).cards = s.cards := by
  unfold showError
  split <;> simp

theorem initDefault_fields (rt : Runtime) (s : State) :
    (initDefault rt s).lastSearch = s.lastSearch ∧ (initDefault rt s).writes = s.writes ∧
    (initDefault rt s).calls = s.calls := by
  unfold initDefault
  simp only
  have h := fetchInitialList_fields rt (showLoading (showError s "") true) DEFAULT_COUNT
  have h0 := showError_fields s ""
  have e1 : (showLoading (showError s "") true).lastSearch = s.lastSearch := h0.1
  have e2 : (showLoading (showError s "") true).writes = s.writes := h0.2.1
  have e3 : (showLoading (showError s "") true).calls = s.calls := h0.2.2.1
  rw [e1, e2, e3] at h
  split
  · rename_i pokemons _
    obtain ⟨⟨_, _, a3, _, _, a6, a7⟩, _⟩ := renderCards_untouched
      (fetchInitialList rt (showLoading (showError s "") true) DEFAULT_COUNT).2 pokemons
    split
    · exact ⟨a6.trans h.1, a7.trans h.2.1, a3.trans h.2.2⟩
    · have h1 := showError_fields (renderCards
        (fetchInitialList rt (showLoading (showError s "") true) DEFAULT_COUNT).2 pokemons).2
        "Unable to load Pokémon list. Try again later."
      exact ⟨(h1.1.trans a6).trans h.1, (h1.2.1.trans a7).trans h.2.1,
        (h1.2.2.1.trans a3).trans h.2.2⟩
  · have h1 := showError_fields
      (fetchInitialList rt (showLoading (showError s "") true) DEFAULT_COUNT).2
      "Unable to load Pokémon list. Try again later."
    exact ⟨h1.1.trans h.1, h1.2.1.trans h.2.1, h1.2.2.1.trans h.2.2⟩

/-! ## Writes to `lastSearch` -/

theorem doSearchExit_frame (q : String) (store : Bool) (s0 : State)
    (r : Except String Unit × State) (hf : SearchFrame q store s0 r)
    (he0 : s0.errorHidden = true) :
    (doSearchExit r).calls = s0.calls ∧
    (((doSearchExit r).errorHidden = false ∧
        (doSearchExit r).lastSearch = s0.lastSearch ∧ (doSearchExit r).writes = s0.writes) ∨
      ((doSearchExit r).errorHidden = true ∧ (∃ cs, cs ≠ [] ∧ (doSearchExit r).cards = .cards cs) ∧
        (doSearchExit r).lastSearch = (if store then some q else s0.lastSearch) ∧
        (doSearchExit r).writes = (if store then s0.writes ++ [q] else s0.writes))) := by
  obtain ⟨he, _, hc, _, _, hok, herr⟩ := hf
  rcases unit_outcome r.1 with hr | ⟨m, hr⟩
  · rw [doSearchExit_ok r hr]
    obtain ⟨hcs, hl, hw⟩ := hok hr
    exact ⟨hc, Or.inr ⟨he.trans he0, hcs, hl, hw⟩⟩
  · rw [doSearchExit_error r m hr]
    obtain ⟨hl, hw⟩ := herr m hr
    exact ⟨hc, Or.inl ⟨rfl, hl, hw⟩⟩

theorem doSearch_nonempty_writes (rt : Runtime) (raw : String) (store : Bool) (s : State) :
    (doSearchExit (doSearchTry rt (jsTrim raw) store
      (showLoading (doSearchEnter raw store s) true))).calls
        = s.calls ++ [Call.doSearch raw store] ∧
    (((doSearchExit (doSearchTry rt (jsTrim raw) store
          (showLoading (doSearchEnter raw store s) true))).errorHidden = false ∧
        (doSearchExit (doSearchTry rt (jsTrim raw) store
          (showLoading (doSearchEnter raw store s) true))).lastSearch = s.lastSearch ∧
        (doSearchExit (doSearchTry rt (jsTrim raw) store
          (showLoading (doSearchEnter raw store s) true))).writes = s.writes) ∨
      ((doSearchExit (doSearchTry rt (jsTrim raw) store
          (showLoading (doSearchEnter raw store s) true))).errorHidden = true ∧
        (∃ cs, cs ≠ [] ∧ (doSearchExit (doSearchTry rt (jsTrim raw) store
          (showLoading (doSearchEnter raw store s) true))).cards = .cards cs) ∧
        (doSearchExit (doSearchTry rt (jsTrim raw) store
          (showLoading (doSearchEnter raw store s) true))).lastSearch
            = (if store then some (jsTrim raw) else s.lastSearch) ∧
        (doSearchExit (doSearchTry rt (jsTrim raw) store
          (showLoading (doSearchEnter raw store s) true))).writes
            = (if store then s.writes ++ [jsTrim raw] else s.writes))) := by
  have hen := doSearchEnter_fields raw store s
  have h := doSearchExit_frame (jsTrim raw) store
    (showLoading (doSearchEnter raw store s) true) _
    (doSearchTry_frame rt (jsTrim raw) store _) hen.2.2.2.2.1
  have e1 : (showLoading (doSearchEnter raw store s) true).calls
      = s.calls ++ [Call.doSearch raw store] := hen.2.2.2.1
  have e3 : (showLoading (doSearchEnter raw store s) true).lastSearch = s.lastSearch := hen.1
  have e4 : (showLoading (doSearchEnter raw store s) true).writes = s.writes := hen.2.1
  rw [e1, e3, e4] at h
  exact h

theorem run_writes (rt : Runtime) (n : Nat) :
    (∀ s s1, init rt n s = some s1 → s1.lastSearch = s.lastSearch ∧ s1.writes = s.writes) ∧
    (∀ raw store s s1, doSearch rt n raw store s = some s1 →
      (s1.lastSearch = s.lastSearch ∧ s1.writes = s.writes) ∨
      (store = true ∧ jsTrim raw ≠ "" ∧ s1.errorHidden = true ∧
        (∃ cs, cs ≠ [] ∧ s1.cards = .cards cs) ∧
        s1.lastSearch = some (jsTrim raw) ∧ s1.writes = s.writes ++ [jsTrim raw])) := by
  induction n with
  | zero =>
    constructor
    · intro s s1 h
      rw [init] at h
      exact absurd h (by simp)
    · intro raw store s s1 h
      rw [doSearch] at h
      exact absurd h (by simp)
  | succ n ih =>
    obtain ⟨ihInit, ihSearch⟩ := ih
    constructor
    · intro s s1 h
      have hen := initEnter_fields s
      by_cases h0 : orElse (initEnter s).lastSearch "" = ""
      · rw [init_default rt n s h0] at h
        simp only [Option.some.injEq] at h
        subst h
        have hd := initDefault_fields rt (initEnter s)
        exact ⟨by rw [hd.1, hen.1], by rw [hd.2.1, hen.2.1]⟩
      · rw [init_restore rt n s h0] at h
        rcases ihSearch _ _ _ _ h with h1 | h1
        · exact ⟨by rw [h1.1]; exact hen.1, by rw [h1.2]; exact hen.2.1⟩
        · exact absurd h1.1 (by simp)
    · intro raw store s s1 h
      by_cases hq : jsTrim raw = ""
      · rw [doSearch_empty rt n raw store s hq] at h
        have h1 := ihInit _ _ h
        have hen := doSearchEnter_fields raw store s
        exact Or.inl ⟨by rw [h1.1, hen.1], by rw [h1.2, hen.2.1]⟩
      · rw [doSearch_nonempty rt n raw store s hq] at h
        simp only [Option.some.injEq] at h
        subst h
        obtain ⟨_, h1 | h1⟩ := doSearch_nonempty_writes rt raw store s
        · exact Or.inl ⟨h1.2.1, h1.2.2⟩
        · cases store with
          | false => exact Or.inl ⟨by simpa using h1.2.2.1, by simpa using h1.2.2.2⟩
          | true =>
            exact Or.inr ⟨rfl, hq, h1.1, h1.2.1, by simpa using h1.2.2.1,
              by simpa using h1.2.2.2⟩

/-! ## The fallback phase -/

theorem enter_requests (raw : String) (store : Bool) (s : State) :
    (showLoading (doSearchEnter raw store s) true).requests = s.requests :=
  (doSearchEnter_fields raw store s).2.2.1

theorem fetchPokemon_enter (rt : Runtime) (raw : String) (store : Bool) (s : State) :
    (fetchPokemon rt (jsTrim raw) (showLoading (doSearchEnter raw store s) true)).1
      = (fetchPokemon rt (jsTrim raw) s).1 :=
  fetchPokemon_fst_congr rt (jsTrim raw) _ _ (by rw [enter_requests])

theorem doSearch_fallback_eq (rt : Runtime) (fuel : Nat) (raw : String) (store : Bool)
    (s : State) (e : String) (resp : Response) (results : List ListingEntry)
    (hq : jsTrim raw ≠ "")
    (hexact : (fetchPokemon rt (jsTrim raw) s).1 = .error e)
    (hlist : rt.fetch (s.requests.length + 1) (listUrl 200) = .resolved resp)
    (hok : resp.ok = true) (hjson : resp.jsonList = .ok ⟨some results⟩) :
    doSearch rt (fuel + 1) raw store s =
      some (doSearchExit (doSearchMatches rt (jsTrim raw) store results
        { showLoading (doSearchEnter raw store s) true with
          requests := s.requests ++ [pokemonUrl rt (jsTrim raw), listUrl 200] })) := by
  have h1 : (fetchPokemon rt (jsTrim raw) (showLoading (doSearchEnter raw store s) true)).1
      = .error e := by rw [fetchPokemon_enter, hexact]
  rw [doSearch_nonempty rt fuel raw store s hq, doSearchTry_fallback _ _ _ _ e h1]
  rw [doSearchCatch_results rt (jsTrim raw) store _ resp results ?_ hok hjson]
  · simp only [enter_requests, List.append_assoc, List.singleton_append]
  · simp only [enter_requests, List.length_append, List.length_singleton]
    exact hlist

theorem detailPromises_all_ok (rt : Runtime) (n0 : Nat) (items : List ListingEntry)
    (ds : List Entity) (hlen : ds.length = items.length)
    (h : ∀ i it d, items[i]? = some it → ds[i]? = some d →
      detailOf (rt.fetch (n0 + i) it.url) = .ok (.pokemon d)) :
    (detailPromises rt n0 items).map (·.2) = (ds.map Body.pokemon).map Except.ok := by
  apply List.ext_getElem?
  intro i
  simp only [detailPromises, List.map_map, List.getElem?_map, List.getElem?_enum]
  cases hi : items[i]? with
  | none =>
    have : ds[i]? = none := by
      rw [List.getElem?_eq_none_iff] at hi ⊢
      omega
    simp [this]
  | some it =>
    have hlt : i < ds.length := by
      have := (List.getElem?_eq_some_iff.mp hi).1
      omega
    have hd : ds[i]? = some ds[i] := List.getElem?_eq_getElem hlt
    simp [hd, h i it ds[i] hi hd]

theorem doSearchMatches_requests (rt : Runtime) (q : String) (store : Bool)
    (results : List ListingEntry) (s : State) :
    (doSearchMatches rt q store results s).2.requests =
      s.requests ++ ((fallbackMatches rt q results).take 24).map (·.url) := by
  by_cases h : fallbackMatches rt q results = []
  · rw [doSearchMatches_none rt q store results s h, h]
    simp
  · cases hd : promiseAll (detailPromises rt s.requests.length
      ((fallbackMatches rt q results).take 24)) with
    | error m => rw [doSearchMatches_error rt q store results s m h hd]
    | ok ds =>
      rw [doSearchMatches_ok rt q store results s ds h hd,
        (renderAndStore_frame rt q store ds _ (details_ne_nil rt q results _ ds h hd)).2]

/-! ## Claims about the search -/

/-- C1 fails on the code: the inner `try` also holds `renderCards([p])` and `storage.set`, so
a successful exact lookup does not keep `doSearch` out of the fallback phase.  Three runs
whose exact lookup succeeds: the body `{"name":"pikachu"}` has no `types` array, `createCard`
throws, and the listing with limit 200 and the detail `pokemon/25/` are fetched; the query
"." is answered with the listing, `createCard` throws, and the listing with limit 200 is
fetched; and when `localStorage.setItem` throws after the card of "pikachu" is rendered, the
listing and the detail are fetched and the search ends with an error shown. -/
theorem doSearch_exact_then_fallback :
    ((fetchPokemon bareRuntime (jsTrim "pikachu") freshState).1
        = .ok (.other "Cannot read properties of undefined") ∧
      ∃ s1, doSearch bareRuntime 1 "pikachu" true freshState = some s1 ∧
        s1.requests = ["https://pokeapi.co/api/v2/pokemon/pikachu",
          "https://pokeapi.co/api/v2/pokemon?limit=200",
          "https://pokeapi.co/api/v2/pokemon/25/"] ∧
        s1.cards = .cards [createCard pikachu] ∧ s1.errorHidden = true) ∧
    ((fetchPokemon dotRuntime (jsTrim ".") freshState).1
        = .ok (.other "Cannot read properties of undefined") ∧
      ∃ s1, doSearch dotRuntime 1 "." true freshState = some s1 ∧
        s1.requests = ["https://pokeapi.co/api/v2/pokemon/.",
          "https://pokeapi.co/api/v2/pokemon?limit=200"] ∧
        s1.cards = CardsHtml.blank ∧ s1.errorHidden = false ∧
        s1.errorText = "No matching Pokémon found.") ∧
    ((fetchPokemon fullStorageRuntime (jsTrim "pikachu") freshState).1
        = .ok (.pokemon pikachu) ∧
      ∃ s1, doSearch fullStorageRuntime 1 "pikachu" true freshState = some s1 ∧
        s1.requests = ["https://pokeapi.co/api/v2/pokemon/pikachu",
          "https://pokeapi.co/api/v2/pokemon?limit=200",
          "https://pokeapi.co/api/v2/pokemon/25/"] ∧
        s1.cards = .cards [createCard pikachu] ∧ s1.errorHidden = false ∧
        s1.errorText = "The quota has been exceeded." ∧ s1.lastSearch = none) :=
  ⟨⟨by rfl, _, rfl, by decide, by decide, by decide⟩,
    ⟨by rfl, _, rfl, by decide, by decide, by decide, by decide⟩,
    ⟨by rfl, _, rfl, by decide, by decide, by decide, by decide, by decide⟩⟩

/-- C2: when the exact lookup fails and the listing request succeeds with entries `results`,
of which `m` match the query, the detail requests `doSearch` issues are the URLs of the first
`min 24 m` matching entries, in listing order, and nothing else is requested; and when each
of these requests settles to an entity, the cards rendered are the cards of those entities,
in that order: exactly `min 24 m` cards, and exactly 24 when more than 24 entries match. -/
theorem doSearch_fallback_first_24 (rt : Runtime) (fuel : Nat) (raw : String) (store : Bool)
    (s : State) (e : String) (resp : Response) (results : List ListingEntry)
    (hq : jsTrim raw ≠ "")
    (hexact : (fetchPokemon rt (jsTrim raw) s).1 = .error e)
    (hlist : rt.fetch (s.requests.length + 1) (listUrl 200) = .resolved resp)
    (hok : resp.ok = true) (hjson : resp.jsonList = .ok ⟨some results⟩) :
    ∃ s1, doSearch rt (fuel + 1) raw store s = some s1 ∧
      s1.requests = s.requests ++ [pokemonUrl rt (jsTrim raw), listUrl 200] ++
        ((fallbackMatches rt (jsTrim raw) results).take 24).map (·.url) ∧
      ((fallbackMatches rt (jsTrim raw) results).take 24).length
        = min 24 (fallbackMatches rt (jsTrim raw) results).length ∧
      ∀ ds : List Entity,
        ds.length = ((fallbackMatches rt (jsTrim raw) results).take 24).length →
        (∀ i it d, ((fallbackMatches rt (jsTrim raw) results).take 24)[i]? = some it →
          ds[i]? = some d →
          detailOf (rt.fetch (s.requests.length + 2 + i) it.url) = .ok (.pokemon d)) →
        renderedCards s1.cards = ds.map createCard ∧
        (renderedCards s1.cards).length
          = min 24 (fallbackMatches rt (jsTrim raw) results).length ∧
        (24 < (fallbackMatches rt (jsTrim raw) results).length →
          (renderedCards s1.cards).length = 24) := by
  refine ⟨_, doSearch_fallback_eq rt fuel raw store s e resp results hq hexact hlist hok hjson,
    ?_, List.length_take _ _, ?_⟩
  · rw [(doSearchExit_requests _).1, doSearchMatches_requests]
  · intro ds hlen hdetails
    have hl : ds.length = min 24 (fallbackMatches rt (jsTrim raw) results).length := by
      rw [hlen, List.length_take]
    have hcards : renderedCards (doSearchExit (doSearchMatches rt (jsTrim raw) store results
        { showLoading (doSearchEnter raw store s) true with
          requests := s.requests ++ [pokemonUrl rt (jsTrim raw), listUrl 200] })).cards
        = ds.map createCard := by
      rw [(doSearchExit_requests _).2]
      by_cases hmatch : fallbackMatches rt (jsTrim raw) results = []
      · have hds : ds = [] := by
          rw [hmatch] at hlen
          simpa using hlen
        rw [doSearchMatches_none rt (jsTrim raw) store results _ hmatch, hds]
        have hen := doSearchEnter_fields raw store s
        simp [showLoading, hen, renderedCards]
      · have hp : promiseAll (detailPromises rt (s.requests.length + 2)
            ((fallbackMatches rt (jsTrim raw) results).take 24)) = .ok (ds.map Body.pokemon) :=
          promiseAll_of_ok _ _ (detailPromises_all_ok rt _ _ ds hlen hdetails)
        have hne : ds ≠ [] := by
          intro h0
          rw [h0] at hl
          have : (fallbackMatches rt (jsTrim raw) results).length ≠ 0 := by
            simpa [List.length_eq_zero] using hmatch
          simp only [List.length_nil] at hl
          omega
        rw [doSearchMatches_ok rt (jsTrim raw) store results _ (ds.map Body.pokemon) hmatch
          (by simpa using hp), renderAndStore_cards rt (jsTrim raw) store ds _ hne]
        rfl
    rw [hcards]
    exact ⟨rfl, by simpa using hl, fun h => by simp only [List.length_map]; omega⟩

/-- C2 at the query "char" on the demo catalog: two of the three listed entries match. -/
theorem doSearch_fallback_first_24_witness :
    ∃ s1, doSearch demoRuntime 1 "char" true freshState = some s1 ∧
      s1.requests = ["https://pokeapi.co/api/v2/pokemon/char",
        "https://pokeapi.co/api/v2/pokemon?limit=200", "https://pokeapi.co/api/v2/pokemon/4/",
        "https://pokeapi.co/api/v2/pokemon/5/"] ∧
      renderedCards s1.cards = [createCard charmander, createCard charmeleon] :=
  match doSearch_fallback_first_24 demoRuntime 0 "char" true freshState
      "Pokémon not found: char" (listBody demoListing)
      demoListing (by decide) (by rfl) (by rfl) rfl rfl with
  | ⟨s1, h1, h2, _, h4⟩ =>
    ⟨s1, h1, h2.trans (by decide),
      (h4 [charmander, charmeleon] (by decide) (by
        intro i it d hi hd
        have e1 : (fallbackMatches demoRuntime (jsTrim "char") demoListing).take 24
            = [⟨"charmander", "https://pokeapi.co/api/v2/pokemon/4/"⟩,
               ⟨"charmeleon", "https://pokeapi.co/api/v2/pokemon/5/"⟩] := by decide
        rw [e1] at hi
        match i, hi, hd with
        | 0, hi, hd =>
          simp only [List.getElem?_cons_zero, Option.some.injEq] at hi hd
          subst hi hd
          rfl
        | 1, hi, hd =>
          simp only [List.getElem?_cons_succ, List.getElem?_cons_zero,
            Option.some.injEq] at hi hd
          subst hi hd
          rfl
        | n + 2, hi, _ => simp at hi)).1⟩

/-- C3 (amended): when the exact lookup fails and no entry of the listing has a name
containing the trimmed, lower-cased query, `doSearch` ends with the error region showing
"No matching Pokémon found.", no card rendered, no detail URL fetched (the only requests are
the exact lookup and the listing) and `lastSearch` not written. -/
theorem doSearch_no_match (rt : Runtime) (fuel : Nat) (raw : String) (store : Bool)
    (s : State) (e : String) (resp : Response) (results : List ListingEntry)
    (hq : jsTrim raw ≠ "")
    (hexact : (fetchPokemon rt (jsTrim raw) s).1 = .error e)
    (hlist : rt.fetch (s.requests.length + 1) (listUrl 200) = .resolved resp)
    (hok : resp.ok = true) (hjson : resp.jsonList = .ok ⟨some results⟩)
    (hnone : ∀ r ∈ results, ¬ Contains r.name (rt.toLowerCase (jsTrim raw))) :
    ∃ s1, doSearch rt (fuel + 1) raw store s = some s1 ∧
      s1.errorHidden = false ∧ s1.errorText = "No matching Pokémon found." ∧
      s1.cards = CardsHtml.blank ∧
      s1.requests = s.requests ++ [pokemonUrl rt (jsTrim raw), listUrl 200] ∧
      s1.writes = s.writes ∧ s1.lastSearch = s.lastSearch := by
  refine ⟨_, doSearch_fallback_eq rt fuel raw store s e resp results hq hexact hlist hok hjson,
    ?_⟩
  have h0 : fallbackMatches rt (jsTrim raw) results = [] := by
    unfold fallbackMatches
    rw [List.filter_eq_nil_iff]
    intro r hr
    rw [includes_iff]
    exact hnone r hr
  rw [doSearchMatches_none rt (jsTrim raw) store results _ h0,
    doSearchExit_error _ "No matching Pokémon found." rfl]
  have hen := doSearchEnter_fields raw store s
  simp [showLoading, hen]

/-- C3 (amended) at the query "zzz" on the demo catalog. -/
theorem doSearch_no_match_witness :
    ∃ s1, doSearch demoRuntime 1 "zzz" true freshState = some s1 ∧
      s1.errorHidden = false ∧ s1.errorText = "No matching Pokémon found." ∧
      s1.cards = CardsHtml.blank ∧
      s1.requests = freshState.requests ++ [pokemonUrl demoRuntime (jsTrim "zzz"), listUrl 200] ∧
      s1.writes = freshState.writes ∧ s1.lastSearch = freshState.lastSearch :=
  doSearch_no_match demoRuntime 0 "zzz" true freshState "Pokémon not found: zzz"
    (listBody demoListing) demoListing
    (by decide) (by rfl) (by rfl) rfl rfl
    (by
      intro r hr
      rw [← includes_iff]
      revert r
      decide)

/-- C3 as stated fails: for the query "zzz" on the demo catalog the exact lookup fails and no
listed name contains "zzz", and the message shown is "No matching Pokémon found.", not
"No matching entity found.". -/
theorem doSearch_no_match_message_counterexample :
    (fetchPokemon demoRuntime (jsTrim "zzz") freshState).1 = .error "Pokémon not found: zzz" ∧
    (∀ r ∈ demoListing, includes r.name (demoRuntime.toLowerCase (jsTrim "zzz")) = false) ∧
    ∃ s1, doSearch demoRuntime 1 "zzz" true freshState = some s1 ∧
      s1.errorHidden = false ∧ s1.errorText = "No matching Pokémon found." ∧
      s1.errorText ≠ "No matching entity found." :=
  ⟨by rfl, by decide, _, rfl, by decide, by decide, by decide⟩

/-- C4 (amended): the fallback filter keeps a listing entry exactly when the entry name, as
the listing delivers it, contains the trimmed, lower-cased query as a contiguous substring
at any position.  Only the query is lower-cased; for an entry whose name is already lower
case this is the same as containment in the lower-cased name. -/
theorem fallbackMatches_iff (rt : Runtime) (raw : String) (results : List ListingEntry)
    (r : ListingEntry) :
    (r ∈ fallbackMatches rt (jsTrim raw) results ↔
      r ∈ results ∧ Contains r.name (rt.toLowerCase (jsTrim raw))) ∧
    (rt.toLowerCase r.name = r.name →
      (r ∈ fallbackMatches rt (jsTrim raw) results ↔
        r ∈ results ∧ Contains (rt.toLowerCase r.name) (rt.toLowerCase (jsTrim raw)))) := by
  have h : r ∈ fallbackMatches rt (jsTrim raw) results ↔
      r ∈ results ∧ Contains r.name (rt.toLowerCase (jsTrim raw)) := by
    unfold fallbackMatches
    rw [List.mem_filter, includes_iff]
  exact ⟨h, fun hl => by rw [hl]; exact h⟩

/-- C4 (amended) at the entry "pikachu" of the demo listing and the query " PIKA". -/
theorem fallbackMatches_iff_witness :
    (⟨"pikachu", "https://pokeapi.co/api/v2/pokemon/25/"⟩ ∈
        fallbackMatches demoRuntime (jsTrim " PIKA") demoListing ↔
      (⟨"pikachu", "https://pokeapi.co/api/v2/pokemon/25/"⟩ : ListingEntry) ∈ demoListing ∧
        Contains "pikachu" (demoRuntime.toLowerCase (jsTrim " PIKA"))) ∧
    (demoRuntime.toLowerCase "pikachu" = "pikachu" →
      (⟨"pikachu", "https://pokeapi.co/api/v2/pokemon/25/"⟩ ∈
          fallbackMatches demoRuntime (jsTrim " PIKA") demoListing ↔
        (⟨"pikachu", "https://pokeapi.co/api/v2/pokemon/25/"⟩ : ListingEntry) ∈ demoListing ∧
          Contains (demoRuntime.toLowerCase "pikachu")
            (demoRuntime.toLowerCase (jsTrim " PIKA")))) :=
  fallbackMatches_iff demoRuntime " PIKA" demoListing
    ⟨"pikachu", "https://pokeapi.co/api/v2/pokemon/25/"⟩

/-- C4 as stated fails: the listed name "Pikachu", lower-cased, contains the query "pika",
yet the filter drops the entry, and the search ends with "No matching Pokémon found.". -/
theorem fallbackMatches_case_counterexample :
    Contains (capsRuntime.toLowerCase "Pikachu") (capsRuntime.toLowerCase (jsTrim "pika")) ∧
    fallbackMatches capsRuntime (jsTrim "pika")
      [⟨"Pikachu", "https://pokeapi.co/api/v2/pokemon/25/"⟩] = [] ∧
    ∃ s1, doSearch capsRuntime 1 "pika" true freshState = some s1 ∧
      s1.requests = ["https://pokeapi.co/api/v2/pokemon/pika",
        "https://pokeapi.co/api/v2/pokemon?limit=200"] ∧
      s1.cards = CardsHtml.blank ∧ s1.errorHidden = false ∧
      s1.errorText = "No matching Pokémon found." :=
  ⟨⟨"", "chu", by decide⟩, by decide, _, rfl, by decide, by decide, by decide, by decide⟩

/-- C5 (amended): fallback hydration is an all-or-nothing join.  When the promise of any one
of the (up to 24) selected entries is rejected (the fetch fails on the network, or the body
cannot be read as JSON), `doSearch` renders no card, does not write `lastSearch`, and the
error region shows the message of one of the rejected promises, or "Search failed." when
that message is empty. -/
theorem doSearch_detail_failure (rt : Runtime) (fuel : Nat) (raw : String) (store : Bool)
    (s : State) (e : String) (resp : Response) (results : List ListingEntry)
    (j : Nat) (it : ListingEntry) (m : String)
    (hq : jsTrim raw ≠ "")
    (hexact : (fetchPokemon rt (jsTrim raw) s).1 = .error e)
    (hlist : rt.fetch (s.requests.length + 1) (listUrl 200) = .resolved resp)
    (hok : resp.ok = true) (hjson : resp.jsonList = .ok ⟨some results⟩)
    (hsel : ((fallbackMatches rt (jsTrim raw) results).take 24)[j]? = some it)
    (hfail : detailOf (rt.fetch (s.requests.length + 2 + j) it.url) = .error m) :
    ∃ s1, doSearch rt (fuel + 1) raw store s = some s1 ∧
      s1.cards = CardsHtml.blank ∧ s1.writes = s.writes ∧ s1.lastSearch = s.lastSearch ∧
      s1.errorHidden = false ∧
      ∃ k it1 m1, ((fallbackMatches rt (jsTrim raw) results).take 24)[k]? = some it1 ∧
        detailOf (rt.fetch (s.requests.length + 2 + k) it1.url) = .error m1 ∧
        s1.errorText = (if m1 ≠ "" then m1 else "Search failed.") := by
  refine ⟨_, doSearch_fallback_eq rt fuel raw store s e resp results hq hexact hlist hok hjson,
    ?_⟩
  have hmatch : fallbackMatches rt (jsTrim raw) results ≠ [] := by
    intro h0
    rw [h0] at hsel
    simp at hsel
  have hmem : (rt.settle (s.requests.length + 2 + j), Except.error m) ∈
      detailPromises rt (s.requests.length + 2)
        ((fallbackMatches rt (jsTrim raw) results).take 24) :=
    (mem_detailPromises rt _ _ _ _).mpr ⟨j, it, hsel, rfl, hfail.symm⟩
  obtain ⟨m1, hm1⟩ := promiseAll_error_of_mem _ _ _ hmem
  obtain ⟨t, ht⟩ := promiseAll_error_mem _ _ hm1
  obtain ⟨k, it1, hk, _, hk2⟩ := (mem_detailPromises rt _ _ _ _).mp ht
  rw [doSearchMatches_error rt (jsTrim raw) store results _ m1 hmatch (by simpa using hm1),
    doSearchExit_error _ m1 rfl]
  have hen := doSearchEnter_fields raw store s
  refine ⟨?_, ?_, ?_, ?_, k, it1, m1, hk, hk2.symm, ?_⟩ <;> simp [showLoading, hen]

/-- C5 (amended) at the query "char" when the connection drops on the second detail. -/
theorem doSearch_detail_failure_witness :
    ∃ s1, doSearch flakyRuntime 1 "char" true freshState = some s1 ∧
      s1.cards = CardsHtml.blank ∧ s1.writes = freshState.writes ∧
      s1.lastSearch = freshState.lastSearch ∧ s1.errorHidden = false ∧
      ∃ k it1 m1, ((fallbackMatches flakyRuntime (jsTrim "char") demoListing).take 24)[k]?
          = some it1 ∧
        detailOf (flakyRuntime.fetch (freshState.requests.length + 2 + k) it1.url)
          = .error m1 ∧
        s1.errorText = (if m1 ≠ "" then m1 else "Search failed.") :=
  doSearch_detail_failure flakyRuntime 0 "char" true freshState "Pokémon not found: char"
    (listBody demoListing) demoListing
    1 ⟨"charmeleon", "https://pokeapi.co/api/v2/pokemon/5/"⟩ "Failed to fetch"
    (by decide) (by rfl) (by rfl) rfl rfl (by decide) (by rfl)

/-- C5 as stated fails twice.  When the connection drops on one detail fetch, the error
region shows the message of that failure, "Failed to fetch", not "Search failed."; and when
the detail URLs answer with status 500 and a JSON body, the cards are rendered and
`lastSearch` is written. -/
theorem doSearch_detail_failure_counterexample :
    (∃ s1, doSearch flakyRuntime 1 "char" true freshState = some s1 ∧
      flakyRuntime.fetch 3 "https://pokeapi.co/api/v2/pokemon/5/" = .rejected "Failed to fetch" ∧
      s1.requests = ["https://pokeapi.co/api/v2/pokemon/char",
        "https://pokeapi.co/api/v2/pokemon?limit=200", "https://pokeapi.co/api/v2/pokemon/4/",
        "https://pokeapi.co/api/v2/pokemon/5/"] ∧
      s1.errorHidden = false ∧ s1.errorText = "Failed to fetch" ∧
      s1.errorText ≠ "Search failed.") ∧
    (∃ s1, doSearch statusRuntime 1 "char" true freshState = some s1 ∧
      statusRuntime.fetch 2 "https://pokeapi.co/api/v2/pokemon/4/"
        = .resolved ⟨false, .ok (.pokemon charmander), .ok ⟨none⟩⟩ ∧
      s1.requests = ["https://pokeapi.co/api/v2/pokemon/char",
        "https://pokeapi.co/api/v2/pokemon?limit=200", "https://pokeapi.co/api/v2/pokemon/4/",
        "https://pokeapi.co/api/v2/pokemon/5/"] ∧
      s1.cards = .cards [createCard charmander, createCard charmeleon] ∧
      s1.errorHidden = true ∧ s1.lastSearch = some "char") :=
  ⟨⟨_, rfl, rfl, by decide, by decide, by decide, by decide⟩,
    ⟨_, rfl, rfl, by decide, by decide, by decide, by decide⟩⟩

/-- C6 (amended): when the trimmed query is non-empty and `doSearch` runs with `store = true`
and succeeds (it ends with no error shown, by the exact lookup or by the fallback), it has
rendered at least one card and the value written to `lastSearch` is the raw input trimmed
of surrounding white space, with its letter case kept. -/
theorem doSearch_stores_trimmed (rt : Runtime) (fuel : Nat) (raw : String) (s : State)
    (hq : jsTrim raw ≠ "") :
    ∃ s1, doSearch rt (fuel + 1) raw true s = some s1 ∧
      (s1.errorHidden = true →
        (∃ cs, cs ≠ [] ∧ s1.cards = .cards cs) ∧
        s1.lastSearch = some (jsTrim raw) ∧ s1.writes = s.writes ++ [jsTrim raw]) := by
  refine ⟨_, doSearch_nonempty rt fuel raw true s hq, ?_⟩
  intro he
  obtain ⟨_, h1 | h1⟩ := doSearch_nonempty_writes rt raw true s
  · rw [h1.1] at he
    exact absurd he (by simp)
  · exact ⟨h1.2.1, by simpa using h1.2.2.1, by simpa using h1.2.2.2⟩

/-- C6 (amended) at the query " Pikachu " on the demo catalog. -/
theorem doSearch_stores_trimmed_witness :
    ∃ s1, doSearch demoRuntime 1 " Pikachu " true freshState = some s1 ∧
      (s1.errorHidden = true →
        (∃ cs, cs ≠ [] ∧ s1.cards = .cards cs) ∧
        s1.lastSearch = some (jsTrim " Pikachu ") ∧
        s1.writes = freshState.writes ++ [jsTrim " Pikachu "]) :=
  doSearch_stores_trimmed demoRuntime 0 " Pikachu " freshState (by decide)

/-- C6 as stated fails: the search for " Pikachu " succeeds by the exact lookup and writes
"Pikachu" to `lastSearch`, not the lower-cased "pikachu". -/
theorem doSearch_stores_trimmed_counterexample :
    ∃ s1, doSearch demoRuntime 1 " Pikachu " true freshState = some s1 ∧
      s1.cards = .cards [createCard pikachu] ∧ s1.errorHidden = true ∧
      s1.lastSearch = some "Pikachu" ∧ s1.writes = ["Pikachu"] ∧
      demoRuntime.toLowerCase (jsTrim " Pikachu ") = "pikachu" ∧
      s1.lastSearch ≠ some (demoRuntime.toLowerCase (jsTrim " Pikachu ")) :=
  ⟨_, rfl, by decide, by decide, by decide, by decide, by decide, by decide⟩

/-! ## Startup -/

theorem wellFormed_not_blank (stored : Option String) (h : StoredWellFormed stored) :
    ¬ BlankStored stored := by
  rintro ⟨v, hv, hne, hblank⟩
  rcases h v hv with h1 | ⟨_, h2⟩
  · exact hne h1
  · rw [hblank] at h2
    exact hne h2.symm

theorem init_terminates (rt : Runtime) (fuel : Nat) (s : State)
    (h : ¬ BlankStored s.lastSearch) :
    ∃ s1, init rt (fuel + 2) s = some s1 ∧
      (s1.calls = s.calls ++ [Call.init] ∨
        ∃ v, s.lastSearch = some v ∧ s1.calls = s.calls ++ [Call.init, Call.doSearch v false]) := by
  have hen := initEnter_fields s
  rcases orElse_eq_empty_or (initEnter s).lastSearch with h0 | ⟨h1, h2⟩
  · refine ⟨_, init_default rt (fuel + 1) s h0, Or.inl ?_⟩
    rw [(initDefault_fields rt (initEnter s)).2.2, hen.2.2.2]
  · replace h1 := hen.1.symm.trans h1
    have hq : jsTrim (orElse (initEnter s).lastSearch "") ≠ "" :=
      fun hb => h ⟨_, h1, h2, hb⟩
    refine ⟨_, (init_restore rt (fuel + 1) s h2).trans (doSearch_nonempty rt fuel _ false _ hq),
      Or.inr ⟨_, h1, ?_⟩⟩
    rw [(doSearch_nonempty_writes rt _ false _).1]
    show (initEnter s).calls ++ _ = _
    rw [hen.2.2.2]
    simp

theorem init_diverges (rt : Runtime) (v : String) (hne : v ≠ "") (hblank : jsTrim v = "")
    (n : Nat) :
    (∀ s, s.lastSearch = some v → init rt n s = none) ∧
    (∀ store s, s.lastSearch = some v → doSearch rt n v store s = none) := by
  induction n with
  | zero =>
    constructor
    · intro s _
      rw [init]
    · intro store s _
      rw [doSearch]
  | succ n ih =>
    constructor
    · intro s hs
      have hen := initEnter_fields s
      have h1 : orElse (initEnter s).lastSearch "" = v := by
        rw [hen.1, hs]
        simp [orElse, hne]
      have h2 : orElse (initEnter s).lastSearch "" ≠ "" := by rw [h1]; exact hne
      rw [init_restore rt n s h2, h1]
      exact ih.2 false _ (by show (initEnter s).lastSearch = some v; rw [hen.1, hs])
    · intro store s hs
      rw [doSearch_empty rt n v store s hblank]
      exact ih.1 _ (by rw [(doSearchEnter_fields v store s).1, hs])

theorem onReset_cases (rt : Runtime) (fuel : Nat) (s : State) :
    ∃ s1, onReset rt (fuel + 1) s = some s1 ∧
      ((rt.setItem s.requests.length "" = none ∧ s1.writes = s.writes ++ [""] ∧
          s1.lastSearch = some "" ∧ s1.calls = s.calls ++ [Call.init]) ∨
        (rt.setItem s.requests.length "" ≠ none ∧ s1.writes = s.writes ∧
          s1.lastSearch = s.lastSearch ∧ s1.calls = s.calls)) := by
  rcases setLastSearch_cases rt { s with searchInput := "" } "" with ⟨h1, h2⟩ | ⟨m, hm, h1, h2⟩
  · have hm : rt.setItem s.requests.length "" = none := by
      cases hm : rt.setItem s.requests.length "" with
      | none => rfl
      | some m =>
        have hm1 : rt.setItem ({ s with searchInput := "" } : State).requests.length ""
            = some m := hm
        simp [setLastSearch, hm1] at h1
    have e1 : (setLastSearch rt { s with searchInput := "" } "").2.lastSearch = some "" := by
      rw [h2]
    have e2 : (setLastSearch rt { s with searchInput := "" } "").2.writes
        = s.writes ++ [""] := by rw [h2]
    have e3 : (setLastSearch rt { s with searchInput := "" } "").2.calls = s.calls := by
      rw [h2]
    have hen := initEnter_fields (setLastSearch rt { s with searchInput := "" } "").2
    have h0 : orElse (initEnter (setLastSearch rt { s with searchInput := "" } "").2).lastSearch
        "" = "" := by
      rw [hen.1, e1]
      rfl
    have hd := initDefault_fields rt
      (initEnter (setLastSearch rt { s with searchInput := "" } "").2)
    refine ⟨initDefault rt (initEnter (setLastSearch rt { s with searchInput := "" } "").2),
      ?_, Or.inl ⟨hm, ?_, ?_, ?_⟩⟩
    · unfold onReset
      simp only [h1]
      exact init_default rt fuel _ h0
    · rw [hd.2.1, hen.2.1, e2]
    · rw [hd.1, hen.1, e1]
    · rw [hd.2.2, hen.2.2.2, e3]
  · refine ⟨{ s with searchInput := "" }, ?_, Or.inr ⟨?_, rfl, rfl, rfl⟩⟩
    · unfold onReset
      simp only [h1, h2]
    · have hm1 : rt.setItem s.requests.length "" = some m := hm
      rw [hm1]
      simp

/-- C7: `doSearch` leaves `lastSearch` unchanged, and writes nothing to it, in every run that
returns with `store = false`, with a query that is empty after trimming, or with an error
shown; and the run does return whenever the trimmed query is non-empty or the stored
`lastSearch` is not a non-empty blank string. -/
theorem doSearch_preserves_lastSearch (rt : Runtime) (raw : String) (store : Bool)
    (s : State) :
    (∀ n s1, doSearch rt n raw store s = some s1 →
      (store = false ∨ jsTrim raw = "" ∨ s1.errorHidden = false) →
      s1.lastSearch = s.lastSearch ∧ s1.writes = s.writes) ∧
    ((jsTrim raw ≠ "" ∨ ¬ BlankStored s.lastSearch) →
      ∀ fuel, ∃ s1, doSearch rt (fuel + 3) raw store s = some s1) := by
  constructor
  · intro n s1 hrun hcase
    rcases (run_writes rt n).2 raw store s s1 hrun with h | ⟨h1, h2, h3, _⟩
    · exact h
    · rcases hcase with hc | hc | hc
      · rw [h1] at hc
        exact absurd hc (by simp)
      · exact absurd hc h2
      · rw [h3] at hc
        exact absurd hc (by simp)
  · intro hterm fuel
    by_cases hq : jsTrim raw = ""
    · have hb : ¬ BlankStored s.lastSearch := by
        rcases hterm with h | h
        · exact absurd hq h
        · exact h
      rw [doSearch_empty rt (fuel + 2) raw store s hq]
      have hb1 : ¬ BlankStored (doSearchEnter raw store s).lastSearch := by
        rw [(doSearchEnter_fields raw store s).1]
        exact hb
      obtain ⟨s1, hs1, _⟩ := init_terminates rt fuel _ hb1
      exact ⟨s1, hs1⟩
    · exact ⟨_, doSearch_nonempty rt (fuel + 2) raw store s hq⟩

/-- C7 at an empty submit on a page whose stored last search is "pikachu". -/
theorem doSearch_preserves_lastSearch_witness :
    ∃ s1, doSearch demoRuntime 3 "  " true pikachuStored = some s1 ∧
      s1.lastSearch = some "pikachu" ∧ s1.writes = [] :=
  match (doSearch_preserves_lastSearch demoRuntime "  " true pikachuStored).2
      (Or.inr (fun ⟨_, hv, _, hb⟩ => by
        cases hv
        exact absurd hb (by decide))) 0 with
  | ⟨s1, hs1⟩ =>
    ⟨s1, hs1, (doSearch_preserves_lastSearch demoRuntime "  " true pikachuStored).1 3 s1 hs1
      (Or.inr (Or.inl (by decide)))⟩

/-- C8 fails on the code: with "pikachu" stored as last search, submitting the empty input
does not render the default listing.  `doSearch` calls `init`, which restores the stored
search: the only request is `pokemon/pikachu`, the single card of that entity is rendered
and "pikachu" is put back into the input field; reset from the same page requests
`pokemon?limit=12` and renders the cards of the listing. -/
theorem doSearch_empty_restores_last_search :
    (∃ s1, onSubmit demoRuntime 3 pikachuStored = some s1 ∧
      s1.requests = ["https://pokeapi.co/api/v2/pokemon/pikachu"] ∧
      s1.cards = .cards [createCard pikachu] ∧
      s1.searchInput = "pikachu" ∧ s1.lastSearch = some "pikachu" ∧
      s1.calls = [Call.doSearch "" true, Call.init, Call.doSearch "pikachu" false]) ∧
    (∃ s2, onReset demoRuntime 3 pikachuStored = some s2 ∧
      s2.requests = ["https://pokeapi.co/api/v2/pokemon?limit=12",
        "https://pokeapi.co/api/v2/pokemon/4/", "https://pokeapi.co/api/v2/pokemon/5/",
        "https://pokeapi.co/api/v2/pokemon/25/"] ∧
      s2.cards = .cards [createCard charmander, createCard charmeleon, createCard pikachu] ∧
      s2.searchInput = "" ∧ s2.lastSearch = some "" ∧ s2.calls = [Call.init]) :=
  ⟨⟨_, rfl, by decide, by decide, by decide, by decide, by decide⟩,
    ⟨_, rfl, by decide, by decide, by decide, by decide, by decide⟩⟩

/-- C10: every value the program writes to `lastSearch` is well formed: `doSearch` writes at
most once, and then the trimmed query, which is non-empty and equal to its own trim; reset
writes the empty string (and nothing at all when `localStorage.setItem` throws); `init`
writes nothing; so a well-formed stored value stays well formed.  From every state whose
stored `lastSearch` is well formed, `init` returns, having called `doSearch` at most once
(with the stored value) and without a second `init`.  For a stored value that is non-empty
but blank after trimming the bound fails: `init` does not return within any depth. -/
theorem lastSearch_wellFormed_bounds_startup (rt : Runtime) (s : State) :
    (∀ n raw store s1, doSearch rt n raw store s = some s1 →
      ((s1.writes = s.writes ∧ s1.lastSearch = s.lastSearch) ∨
        (s1.writes = s.writes ++ [jsTrim raw] ∧ s1.lastSearch = some (jsTrim raw) ∧
          jsTrim raw ≠ "" ∧ jsTrim (jsTrim raw) = jsTrim raw)) ∧
      (StoredWellFormed s.lastSearch → StoredWellFormed s1.lastSearch)) ∧
    (∀ fuel, ∃ s1, onReset rt (fuel + 1) s = some s1 ∧
      ((rt.setItem s.requests.length "" = none ∧ s1.writes = s.writes ++ [""] ∧
          s1.lastSearch = some "" ∧ StoredWellFormed s1.lastSearch) ∨
        (rt.setItem s.requests.length "" ≠ none ∧ s1.writes = s.writes ∧
          s1.lastSearch = s.lastSearch))) ∧
    (∀ n s1, init rt n s = some s1 → s1.writes = s.writes ∧ s1.lastSearch = s.lastSearch) ∧
    (StoredWellFormed s.lastSearch → ∀ fuel, ∃ s1, init rt (fuel + 2) s = some s1 ∧
      (s1.calls = s.calls ++ [Call.init] ∨
        ∃ v, s.lastSearch = some v ∧
          s1.calls = s.calls ++ [Call.init, Call.doSearch v false])) ∧
    (BlankStored s.lastSearch → ∀ n, init rt n s = none) := by
  refine ⟨?_, ?_, ?_, ?_, ?_⟩
  · intro n raw store s1 hrun
    rcases (run_writes rt n).2 raw store s s1 hrun with h | ⟨_, h2, _, _, h5, h6⟩
    · exact ⟨Or.inl ⟨h.2, h.1⟩, fun hw => by rw [h.1]; exact hw⟩
    · refine ⟨Or.inr ⟨h6, h5, h2, jsTrim_idem raw⟩, fun _ v hv => ?_⟩
      rw [h5] at hv
      cases hv
      exact Or.inr ⟨h2, jsTrim_idem raw⟩
  · intro fuel
    obtain ⟨s1, h1, ⟨h2, h3, h4, _⟩ | ⟨h2, h3, h4, _⟩⟩ := onReset_cases rt fuel s
    · refine ⟨s1, h1, Or.inl ⟨h2, h3, h4, fun v hv => ?_⟩⟩
      rw [h4] at hv
      cases hv
      exact Or.inl rfl
    · exact ⟨s1, h1, Or.inr ⟨h2, h3, h4⟩⟩
  · intro n s1 hrun
    have h := (run_writes rt n).1 s s1 hrun
    exact ⟨h.2, h.1⟩
  · intro hw fuel
    exact init_terminates rt fuel s (wellFormed_not_blank _ hw)
  · rintro ⟨v, hv, hne, hblank⟩ n
    exact (init_diverges rt v hne hblank n).1 s hv

/-- C10 at startup on a page whose stored last search is "pikachu". -/
theorem lastSearch_wellFormed_bounds_startup_witness :
    ∃ s1, init demoRuntime 2 pikachuStored = some s1 ∧
      (s1.calls = pikachuStored.calls ++ [Call.init] ∨
        ∃ v, pikachuStored.lastSearch = some v ∧
          s1.calls = pikachuStored.calls ++ [Call.init, Call.doSearch v false]) :=
  (lastSearch_wellFormed_bounds_startup demoRuntime pikachuStored).2.2.2.1
    (fun v hv => by
      cases hv
      exact Or.inr ⟨by decide, by decide⟩) 0

end Pokedex
